import Mathlib

/-!
# writev05: vectored write with an inaccessible first segment

A shallow embedding of `testcases/kernel/syscalls/writev/writev05.c`.

The program talks to the operating system and to the test harness. Both are
outside the file, so the embedding is a function from the outcomes of the
system calls (the environment, `Env` and `IterEnv`) to the list of observable
actions of the program (`Event`) and its final state (`St`).

* Every system call whose result the program tests takes its result
  `(ret, errno)` from the environment.
* `open` takes from the environment only whether it fails and why; when it
  does not fail the descriptor is the lowest free one, as POSIX prescribes.
* The effect of a system call on the target file follows the usual Unix
  semantics on a small kernel state: the inode store, the directory entry of
  the target file and the table of open descriptors.
-/

namespace Writev05

/-! ## Constants -/

/-- The unit size `K_1` of the source. -/
def K_1 : Nat := 8192

/-- The chunk size `CHUNK`, one unit. -/
def CHUNK : Nat := K_1

/-- The base name `DATA_FILE` of the target file. -/
def DATA_FILE : String := "writev_data_file"

/-- The errno value `ENOENT` (Linux). -/
def ENOENT : Int := 2

/-- The errno value `EFAULT` (Linux). -/
def EFAULT : Int := 14

/-- The signal number `SIGPIPE` (Linux). -/
def SIGPIPE : Int := 13

/-- The signal number `SIGTERM` (Linux). -/
def SIGTERM : Int := 15

/-! ## The `%d` conversion of `sprintf` and `tst_resm` -/

/-- The character of a decimal digit. -/
def digitChar (d : Nat) : Char := Char.ofNat (48 + d)

/-- The decimal digits of `n`, most significant first; `fuel` bounds the
number of digits. -/
def decDigits : Nat → Nat → List Char
  | 0, _ => []
  | fuel + 1, n =>
    if n < 10 then [digitChar n] else decDigits fuel (n / 10) ++ [digitChar (n % 10)]

/-- The characters `%d` prints for an `int`. -/
def fmt_d_chars (i : Int) : List Char :=
  if i < 0 then '-' :: decDigits (i.natAbs + 1) i.natAbs
  else decDigits (i.natAbs + 1) i.natAbs

/-- The string `%d` prints for an `int`. -/
def fmt_d (i : Int) : String := String.mk (fmt_d_chars i)

/-! ## Observable actions -/

/-- The result types of `tst_resm` the program uses. -/
inductive TType
  | TPASS
  | TFAIL
deriving DecidableEq, Repr

/-- The result of a system call: the returned value and the value `errno`
has when the call failed. -/
structure SysRes where
  ret : Int
  errno : Int
deriving DecidableEq, Repr

/-- One observable action of the program: a call into the harness, the C
library or the kernel, with its arguments and, for a system call, its result. -/
inductive Event
  | tst_parse_opts
  | tst_sig
  | TEST_PAUSE
  | tst_tmpdir
  | sys_getpid (ret : Int)
  | sys_mmap (ret : Int)
  | printf (msg : String)
  | perror (msg : String)
  | tst_resm (ttype : TType) (msg : String)
  | sys_signal (sig : Int) (ok : Bool)
  | sys_open (path : String) (creat rd wr : Bool) (ret : Int)
  | sys_write (fd : Int) (count : Nat) (ret : Int)
  | sys_close (fd : Int) (ret : Int)
  | sys_lseek (fd : Int) (offset : Nat) (ret : Int)
  | sys_writev (fd : Int) (iovcnt : Nat) (ret : Int)
  | sys_read (fd : Int) (count : Nat) (ret : Int)
  | sys_unlink (path : String) (ret : Int)
  | tst_rmdir
  | exit (status : Int)
  | tst_exit
deriving DecidableEq, Repr

/-! ## State -/

/-- One segment `struct iovec`: base address and length. -/
structure Iovec where
  iov_base : Int
  iov_len : Nat
deriving DecidableEq, Repr

/-- An open file description: the inode it refers to, the cursor and the
access mode. -/
structure OFD where
  ino : Nat
  pos : Nat
  rd : Bool
  wr : Bool
deriving DecidableEq, Repr

/-- The state of the process. The first group of fields are the globals of
the source (`buf_list[0]` is `buf1` and `buf_list[1]` is `buf2` throughout,
`fd0` and `fd1` are `fd[0]` and `fd[1]`), then `errno` and the harness
variables `TEST_RETURN` and `TEST_ERRNO`, then the kernel state: the contents
of the inodes, the inode the name `f_name` is linked to in the working
directory, and the open descriptors of the process that refer to the target
file. -/
structure St where
  buf1 : List Nat
  buf2 : List Nat
  bad_addr : Int
  wr_iovec : List Iovec
  name : String
  f_name : String
  fd0 : Int
  fd1 : Int
  in_sighandler : Int
  errno : Int
  TEST_RETURN : Int
  TEST_ERRNO : Int
  inodes : List (List Nat)
  link : Option Nat
  fdt : List (Int × OFD)
deriving DecidableEq, Repr

/-- The state at program start: zero-initialised globals, the initialiser of
`wr_iovec` (base address `(caddr_t)-1` and length `CHUNK`, then `NULL` and
`0`), no descriptor on the target file. -/
def init : St where
  buf1 := List.replicate K_1 0
  buf2 := List.replicate K_1 0
  bad_addr := 0
  wr_iovec := [⟨-1, CHUNK⟩, ⟨0, 0⟩]
  name := ""
  f_name := ""
  fd0 := 0
  fd1 := 0
  in_sighandler := 0
  errno := 0
  TEST_RETURN := 0
  TEST_ERRNO := 0
  inodes := []
  link := none
  fdt := []

/-! ## Programs -/

/-- A piece of program: from a state to the actions performed and the state
reached. -/
abbrev Prog := St → List Event × St

/-- The empty statement. -/
def skip : Prog := fun s => ([], s)

/-- Sequential composition. -/
def andThen (p q : Prog) : Prog := fun s =>
  ((p s).1 ++ (q (p s).2).1, (q (p s).2).2)

/-- A block of statements. -/
def block : List Prog → Prog
  | [] => skip
  | p :: ps => andThen p (block ps)

/-- The statement `if (c) p else q`. -/
def cond (c : St → Bool) (p q : Prog) : Prog := fun s =>
  if c s then p s else q s

/-- A call that has no effect on the modelled state. -/
def emit (ev : Event) : Prog := fun s => ([ev], s)

/-- The harness routine `tst_resm(ttype, fmt, ...)`: the message is formatted
from the state at the call. -/
def tst_resm (t : TType) (msg : St → String) : Prog := fun s =>
  ([Event.tst_resm t (msg s)], s)

/-! ## Kernel -/

/-- A failed call stores its error code in `errno`. -/
def setErrno (r : SysRes) (s : St) : St :=
  if r.ret < 0 then { s with errno := r.errno } else s

/-- Replace the open file description of descriptor `fd`. -/
def fdSet (fd : Int) (o : OFD) (t : List (Int × OFD)) : List (Int × OFD) :=
  t.map (fun p => if p.1 = fd then (p.1, o) else p)

/-- Release descriptor `fd`. -/
def fdDel (fd : Int) (t : List (Int × OFD)) : List (Int × OFD) :=
  t.filter (fun p => p.1 != fd)

/-- Descriptor number `n` is not in use. -/
def fdFree (t : List (Int × OFD)) (n : Nat) : Bool :=
  !(t.any (fun p => p.1 == (n : Int)))

/-- The lowest free descriptor; 0, 1 and 2 are the standard streams. -/
def lowestFree (t : List (Int × OFD)) : Int :=
  match (List.range (t.length + 1)).find? (fun i => fdFree t (i + 3)) with
  | some i => ((i + 3 : Nat) : Int)
  | none => ((t.length + 3 : Nat) : Int)

/-- The content of a file after `data` is written at offset `pos`. -/
def pwrite (c : List Nat) (pos : Nat) (data : List Nat) : List Nat :=
  if data = [] then c
  else c.take pos ++ List.replicate (pos - c.length) 0 ++ data ++ c.drop (pos + data.length)

/-- The bytes a read of at most `n` bytes at offset `pos` transfers. -/
def pread (c : List Nat) (pos : Nat) (n : Nat) : List Nat :=
  (c.drop pos).take n

/-- The call `signal(sig, sighandler)`: `none` when it succeeds, `some e` when
it returns `SIG_ERR` with `errno = e`. -/
def sys_signal (sig : Int) (r : Option Int) : Prog := fun s =>
  ([Event.sys_signal sig r.isNone],
   match r with
   | none => s
   | some e => { s with errno := e })

/-- The statement `fd[0] = open(f_name, flags, 0666)`. The environment may
make the call fail with `some e`; otherwise it fails with `ENOENT` when the file
is absent and `O_CREAT` is not given, and else returns the lowest free
descriptor, with the cursor at 0, creating the file empty when it is absent. No
flag truncates. -/
def open_fd0 (creat rd wr : Bool) (inj : Option Int) : Prog := fun s =>
  match inj with
  | some e =>
    ([Event.sys_open s.f_name creat rd wr (-1)], { s with fd0 := -1, errno := e })
  | none =>
    match s.link with
    | some i =>
      ([Event.sys_open s.f_name creat rd wr (lowestFree s.fdt)],
       { s with fd0 := lowestFree s.fdt,
                fdt := (lowestFree s.fdt, ⟨i, 0, rd, wr⟩) :: s.fdt })
    | none =>
      if creat then
        ([Event.sys_open s.f_name creat rd wr (lowestFree s.fdt)],
         { s with fd0 := lowestFree s.fdt,
                  inodes := s.inodes ++ [[]],
                  link := some s.inodes.length,
                  fdt := (lowestFree s.fdt, ⟨s.inodes.length, 0, rd, wr⟩) :: s.fdt })
      else
        ([Event.sys_open s.f_name creat rd wr (-1)],
         { s with fd0 := -1, errno := ENOENT })

/-- The call `write(fd[0], buf_list[1], K_1)` returning `r.ret`: when the
result is positive and the descriptor is open for writing, that many bytes of
the buffer are written at the cursor, which advances. -/
def sys_write (r : SysRes) : Prog := fun s =>
  ([Event.sys_write s.fd0 K_1 r.ret],
   setErrno r
     (match s.fdt.lookup s.fd0 with
      | some o =>
        if o.wr = true ∧ 0 < r.ret then
          { s with
            inodes := s.inodes.set o.ino
              (pwrite (s.inodes.getD o.ino []) o.pos ((s.buf2.take K_1).take r.ret.toNat)),
            fdt := fdSet s.fd0
              { o with pos := o.pos + ((s.buf2.take K_1).take r.ret.toNat).length } s.fdt }
        else s
      | none => s))

/-- The call `close(fd)`: the descriptor is released (also when the call
reports an error). -/
def sys_close (fd : St → Int) (r : SysRes) : Prog := fun s =>
  ([Event.sys_close (fd s) r.ret], setErrno r { s with fdt := fdDel (fd s) s.fdt })

/-- The call `lseek(fd, offset, 0)` (whence 0 is `SEEK_SET`): when it succeeds
the cursor of the descriptor is `offset`. -/
def sys_lseek (fd : St → Int) (offset : Nat) (r : SysRes) : Prog := fun s =>
  ([Event.sys_lseek (fd s) offset r.ret],
   setErrno r
     (match s.fdt.lookup (fd s) with
      | some o =>
        if 0 ≤ r.ret then { s with fdt := fdSet (fd s) { o with pos := offset } s.fdt } else s
      | none => s))

/-- The statement `TEST(writev(fd[0], wr_iovec, 2))`: the harness macro `TEST`
stores the result in `TEST_RETURN` and the error code in `TEST_ERRNO`.
A successful call transfers `r.ret` bytes, at most the sum of the two segment
lengths, to the cursor (`data` are those bytes). What a failed call leaves in
the file is for the environment to say: `after = none` when it left the file
as it was, `some c` when the file holds `c` afterwards. -/
def TEST_writev (r : SysRes) (data : List Nat) (after : Option (List Nat)) : Prog := fun s =>
  ([Event.sys_writev s.fd0 2 r.ret],
   { setErrno r
       (match s.fdt.lookup s.fd0 with
        | some o =>
          if r.ret < 0 then
            match after with
            | some c => { s with inodes := s.inodes.set o.ino c }
            | none => s
          else if o.wr = true then
            { s with
              inodes := s.inodes.set o.ino
                (pwrite (s.inodes.getD o.ino []) o.pos
                  (data.take (min r.ret.toNat ((s.wr_iovec.take 2).map Iovec.iov_len).sum))),
              fdt := fdSet s.fd0
                { o with pos := o.pos +
                    (data.take (min r.ret.toNat
                      ((s.wr_iovec.take 2).map Iovec.iov_len).sum)).length } s.fdt }
          else s
        | none => s) with
     TEST_RETURN := r.ret,
     TEST_ERRNO := (setErrno r s).errno })

/-- The call `read(fd[0], buf_list[0], CHUNK)` returning `r.ret`: when the
result is positive and the descriptor is open for reading, the bytes at the
cursor are copied to the buffer and the cursor advances. -/
def sys_read (r : SysRes) : Prog := fun s =>
  ([Event.sys_read s.fd0 CHUNK r.ret],
   setErrno r
     (match s.fdt.lookup s.fd0 with
      | some o =>
        if o.rd = true ∧ 0 < r.ret then
          { s with
            buf1 := pread (s.inodes.getD o.ino []) o.pos (min r.ret.toNat CHUNK) ++
              s.buf1.drop (pread (s.inodes.getD o.ino []) o.pos (min r.ret.toNat CHUNK)).length,
            fdt := fdSet s.fd0
              { o with pos := o.pos +
                  (pread (s.inodes.getD o.ino []) o.pos (min r.ret.toNat CHUNK)).length } s.fdt }
        else s
      | none => s))

/-- The call `unlink(f_name)`: when it succeeds the name is gone from the
directory (descriptors that are open keep their inode). -/
def sys_unlink (r : SysRes) : Prog := fun s =>
  ([Event.sys_unlink s.f_name r.ret],
   setErrno r (if 0 ≤ r.ret then { s with link := none } else s))

/-! ## The functions of the source -/

/-- The function `l_seek` (lines 255-261), called with whence 0: `lseek` and a
report when it fails. -/
def l_seek (fdesc : St → Int) (offset : Nat) (r : SysRes) : Prog :=
  block [
    sys_lseek fdesc offset r,
    cond (fun _ => decide (r.ret < 0))
      (tst_resm TType.TFAIL (fun s => "lseek Failed : errno = " ++ fmt_d s.errno))
      skip ]

/-- The function `cleanup` (lines 214-223); `u` is the outcome of its
`unlink`. The harness routine `tst_rmdir` is recorded as an action. -/
def cleanup (u : SysRes) : Prog :=
  block [
    sys_unlink u,
    cond (fun _ => decide (u.ret < 0))
      (tst_resm TType.TFAIL
        (fun s => "unlink Failed--file = " ++ s.f_name ++ ", errno = " ++ fmt_d s.errno))
      skip,
    emit Event.tst_rmdir ]

/-- The function `sighandler` (lines 229-249); `u1` is the outcome of its own
`unlink` and `u2` the outcome of the `unlink` of the `cleanup` it may call. -/
def sighandler (sig : Int) (u1 u2 : SysRes) : Prog :=
  if sig = SIGPIPE then
    fun s => ([], { s with in_sighandler := s.in_sighandler + 1 })
  else
    block [
      cond (fun _ => decide (sig = SIGTERM)) skip
        (tst_resm TType.TFAIL
          (fun _ => "sighandler() received invalid signal : " ++ fmt_d sig)),
      sys_unlink u1,
      cond (fun s => decide (u1.ret < 0) && decide (s.errno ≠ ENOENT))
        (block [
          tst_resm TType.TFAIL
            (fun s => "unlink Failed--file = " ++ s.f_name ++ ", errno = " ++ fmt_d s.errno),
          cleanup u2 ])
        skip,
      emit (Event.exit sig) ]

/-- The function `setup` (lines 183-207). `pid` is what `getpid` returns and
`mm` what `mmap` returns (`-1` is `MAP_FAILED`). The harness routine
`tst_tmpdir` creates a fresh working directory, in which the target file does
not exist. -/
def setup (pid : Int) (mm : Int) : Prog :=
  block [
    emit Event.tst_sig,
    emit Event.TEST_PAUSE,
    fun s => ([Event.tst_tmpdir], { s with link := none }),
    fun s => ([], { s with name := DATA_FILE }),
    fun s => ([Event.sys_getpid pid], { s with f_name := s.name ++ "." ++ fmt_d pid }),
    fun s => ([Event.sys_mmap mm], { s with bad_addr := mm }),
    cond (fun s => decide (s.bad_addr = -1)) (emit (Event.printf "mmap failed\n")) skip,
    fun s => ([], { s with
      wr_iovec := s.wr_iovec.set 0 ⟨s.bad_addr, (s.wr_iovec.getD 0 ⟨0, 0⟩).iov_len⟩ }) ]

/-- The places of the loop body that call `cleanup`. -/
inductive Site
  | sigterm
  | sigpipe
  | wopen
  | wwrite
  | wclose
  | reopen
deriving DecidableEq, Repr

/-- The outcomes of the system calls of one pass of the loop of `main`. -/
structure IterEnv where
  sigterm : Option Int
  sigpipe : Option Int
  open1 : Option Int
  write1 : SysRes
  close1 : SysRes
  open2 : Option Int
  lseek1 : SysRes
  writev : SysRes
  writev_data : List Nat
  writev_after : Option (List Nat)
  lseek2 : SysRes
  read1 : SysRes
  unlink : Site → SysRes

/-- The statement `fd[1] = -1` (line 105). -/
def reset_fd1 : Prog := fun s => ([], { s with fd1 := -1 })

/-- The two `memset` calls (lines 120-121): `buf_list[0]` and `buf_list[1]`
are filled with `K_1` zero bytes. -/
def zero_bufs : Prog := fun s =>
  ([], { s with buf1 := List.replicate K_1 0, buf2 := List.replicate K_1 0 })

/-- The first preparatory steps of a pass (lines 100-117): the reset of
`fd[1]` and the registration of the two signal handlers. The reset of the
harness counter `tst_count` and the assignments of `buf1` and `buf2` to
`buf_list` do not change the state as it is kept here. -/
def prep_signals (e : IterEnv) : Prog :=
  block [
    reset_fd1,
    sys_signal SIGTERM e.sigterm,
    cond (fun _ => e.sigterm.isSome)
      (block [
        emit (Event.perror "signal"),
        tst_resm TType.TFAIL (fun _ => "signal() SIGTERM FAILED"),
        cleanup (e.unlink Site.sigterm) ])
      skip,
    sys_signal SIGPIPE e.sigpipe,
    cond (fun _ => e.sigpipe.isSome)
      (block [
        emit (Event.perror "signal"),
        tst_resm TType.TFAIL (fun _ => "signal() SIGPIPE FAILED"),
        cleanup (e.unlink Site.sigpipe) ])
      skip ]

/-- The two branches after the write-only open (lines 123-133): when the
open failed, the report and `cleanup`; otherwise the write of one unit and,
when it did not return `K_1`, the report and `cleanup`. -/
def after_wopen (e : IterEnv) : Prog :=
  cond (fun s => decide (s.fd0 < 0))
    (block [
      tst_resm TType.TFAIL
        (fun s => "open(2) failed: fname = " ++ s.f_name ++ ", errno = " ++ fmt_d s.errno),
      cleanup (e.unlink Site.wopen) ])
    (block [
      sys_write e.write1,
      cond (fun _ => decide (e.write1.ret ≠ (K_1 : Int)))
        (block [
          tst_resm TType.TFAIL
            (fun s => "write(2) failed: nbytes = " ++ fmt_d e.write1.ret ++
              ", errno = " ++ fmt_d s.errno),
          cleanup (e.unlink Site.wwrite) ])
        skip ])

/-- The branch after the close (lines 135-138): when it failed, the report
and `cleanup`. -/
def after_close (e : IterEnv) : Prog :=
  cond (fun _ => decide (e.close1.ret < 0))
    (block [
      tst_resm TType.TFAIL (fun s => "close failed: errno = " ++ fmt_d s.errno),
      cleanup (e.unlink Site.wclose) ])
    skip

/-- The branch after the read-write open (lines 140-144): when it failed,
the report and `cleanup`. -/
def after_reopen (e : IterEnv) : Prog :=
  cond (fun s => decide (s.fd0 < 0))
    (block [
      tst_resm TType.TFAIL
        (fun s => "open failed: fname = " ++ s.f_name ++ ", errno = " ++ fmt_d s.errno),
      cleanup (e.unlink Site.reopen) ])
    skip

/-- The preparatory steps of a pass on the target file (lines 119-153): the
buffers are zeroed, the file is opened write-only (created when absent), one
unit is written, the file is closed and reopened read-write, and the cursor is
set to offset 0. -/
def prep_file (e : IterEnv) : Prog :=
  block [
    zero_bufs,
    open_fd0 true false true e.open1,
    after_wopen e,
    sys_close (fun s => s.fd0) e.close1,
    after_close e,
    open_fd0 false true true e.open2,
    after_reopen e,
    l_seek (fun s => s.fd0) 0 e.lseek1 ]

/-- The preparatory steps of a pass (lines 100-153), up to and including the
seek to offset 0. -/
def prep (e : IterEnv) : Prog :=
  andThen (prep_signals e) (prep_file e)

/-- The probe of a pass (lines 154-170): the vectored write and the checks
on its outcome. -/
def probe (e : IterEnv) : Prog :=
  block [
    TEST_writev e.writev e.writev_data e.writev_after,
    cond (fun s => decide (s.TEST_RETURN < 0))
      (block [
        cond (fun s => decide (s.TEST_ERRNO = EFAULT))
          (tst_resm TType.TPASS (fun _ => "Received EFAULT as expected"))
          (tst_resm TType.TFAIL (fun s => "Expected EFAULT, got " ++ fmt_d s.TEST_ERRNO)),
        l_seek (fun s => s.fd0) K_1 e.lseek2,
        sys_read e.read1,
        cond (fun _ => decide (e.read1.ret ≠ 0))
          (tst_resm TType.TFAIL
            (fun _ => "Expected nbytes = 0, got " ++ fmt_d e.read1.ret))
          skip ])
      (tst_resm TType.TFAIL (fun _ => "Error writev returned a positive value")) ]

/-- One pass of the loop of `main` (lines 97-171). -/
def main_body (e : IterEnv) : Prog :=
  andThen (prep e) (probe e)

/-- The outcomes of the system calls of a run of `main`. The harness macro
`TEST_LOOPING(lc)` holds for `lc < iters.length`: the loop makes one pass for
each element of `iters`. -/
structure Env where
  pid : Int
  mmap_ret : Int
  iters : List IterEnv
  close_fd0 : SysRes
  close_fd1 : SysRes
  unlink : SysRes

/-- The loop of `main`. -/
def main_loop (es : List IterEnv) : Prog :=
  block (es.map main_body)

/-- The function `main` (lines 86-177). -/
def main (env : Env) : Prog :=
  block [
    emit Event.tst_parse_opts,
    setup env.pid env.mmap_ret,
    main_loop env.iters,
    sys_close (fun s => s.fd0) env.close_fd0,
    sys_close (fun s => s.fd1) env.close_fd1,
    cleanup env.unlink,
    emit Event.tst_exit ]

/-! ## Vocabulary of the statements -/

/-- The value of a digit character. -/
def digitVal (c : Char) : Nat := c.toNat - 48

/-- The number a list of digit characters denotes. -/
def decValue (cs : List Char) : Nat := cs.foldl (fun acc c => 10 * acc + digitVal c) 0

/-- A reported PASS. -/
def isPass : Event → Bool
  | Event.tst_resm TType.TPASS _ => true
  | _ => false

/-- A seek to offset `K_1` or a read. -/
def isResidualIO : Event → Bool
  | Event.sys_lseek _ off _ => off == K_1
  | Event.sys_read _ _ _ => true
  | _ => false

/-- An action of `cleanup`, or the end of the process. -/
def isCleanupOrExit : Event → Bool
  | Event.sys_unlink _ _ => true
  | Event.tst_rmdir => true
  | Event.exit _ => true
  | Event.tst_exit => true
  | _ => false

/-- A deletion attempt. -/
def isUnlink : Event → Bool
  | Event.sys_unlink _ _ => true
  | _ => false

/-- The removal of the working directory, which only `cleanup` performs. -/
def isRmdir : Event → Bool
  | Event.tst_rmdir => true
  | _ => false

/-- The actions of the probe, as a function of the outcomes of its calls and
of the descriptor in `fd[0]`. -/
def probeEvents (e : IterEnv) (fd : Int) : List Event :=
  Event.sys_writev fd 2 e.writev.ret ::
    (if e.writev.ret < 0 then
      (if e.writev.errno = EFAULT then
          Event.tst_resm TType.TPASS "Received EFAULT as expected"
        else Event.tst_resm TType.TFAIL ("Expected EFAULT, got " ++ fmt_d e.writev.errno)) ::
      Event.sys_lseek fd K_1 e.lseek2.ret ::
      ((if e.lseek2.ret < 0 then
          [Event.tst_resm TType.TFAIL ("lseek Failed : errno = " ++ fmt_d e.lseek2.errno)]
        else []) ++
       Event.sys_read fd CHUNK e.read1.ret ::
       (if e.read1.ret ≠ 0 then
          [Event.tst_resm TType.TFAIL ("Expected nbytes = 0, got " ++ fmt_d e.read1.ret)]
        else []))
    else [Event.tst_resm TType.TFAIL "Error writev returned a positive value"])

/-- The actions a preparatory step may perform. -/
def prepEvent : Event → Bool
  | Event.sys_signal _ _ => true
  | Event.perror _ => true
  | Event.tst_resm TType.TFAIL _ => true
  | Event.sys_unlink _ _ => true
  | Event.tst_rmdir => true
  | Event.sys_open _ _ _ _ _ => true
  | Event.sys_write _ _ _ => true
  | Event.sys_close _ _ => true
  | Event.sys_lseek _ 0 _ => true
  | _ => false

/-- Every action of the program satisfies `Q`, whatever the state. -/
def AllEv (Q : Event → Prop) (p : Prog) : Prop := ∀ s ev, ev ∈ (p s).1 → Q ev

/-- A statement about the states a program reaches: from a state that
satisfies `P` the program `p` reaches a state that satisfies `Q`. -/
def Hoare (P : St → Prop) (p : Prog) (Q : St → Prop) : Prop := ∀ s, P s → Q (p s).2

/-- The kernel invariant of the loop: no inode holds more than one unit, the
directory entry of the target file names an inode that exists, every
descriptor on the target file is 3 or above, and the segments of `wr_iovec`
add up to at most one unit. -/
def InvK (s : St) : Prop :=
  (∀ c ∈ s.inodes, c.length ≤ K_1) ∧
  (∀ i, s.link = some i → i < s.inodes.length) ∧
  (∀ p ∈ s.fdt, 3 ≤ p.1) ∧
  ((s.wr_iovec.take 2).map Iovec.iov_len).sum ≤ K_1

/-- When `fd[0]` is an open descriptor, its cursor is at offset 0. -/
def CurAt0 (s : St) : Prop := ∀ o, s.fdt.lookup s.fd0 = some o → o.pos = 0

/-- A field of the state that the program `p` leaves as it is. -/
def Keeps {α : Type} (f : St → α) (p : Prog) : Prop := ∀ s, f (p s).2 = f s

/-- The run of `main` up to the end of pass `k` of the loop. -/
def main_upto (env : Env) (k : Nat) : Prog :=
  block [
    emit Event.tst_parse_opts,
    setup env.pid env.mmap_ret,
    main_loop (env.iters.take k) ]

/-- An `open` or a `close`. -/
def isOpenClose : Event → Bool
  | Event.sys_open _ _ _ _ _ => true
  | Event.sys_close _ _ => true
  | _ => false

/-- The action is not an `open` that failed. -/
def openOk : Event → Bool
  | Event.sys_open _ _ _ _ ret => decide (0 ≤ ret)
  | _ => true

/-- The number of descriptors that are open for reading and writing. -/
def rwCount (t : List (Int × OFD)) : Nat :=
  t.countP (fun p => p.2.rd && p.2.wr)

/-- The descriptor `fd[0]` and the descriptor table. -/
def fdView (s : St) : Int × List (Int × OFD) := (s.fd0, s.fdt)

/-- After an `open` into `fd[0]` from the descriptor table `t`: either the
open failed, `fd[0]` is -1 and the table is `t`, or `fd[0]` is the lowest
descriptor free in `t` and has been added to `t`, with the access mode
`(rd, wr)`. -/
def Opened (t : List (Int × OFD)) (rd wr : Bool) (s : St) : Prop :=
  (s.fd0 = -1 ∧ s.fdt = t) ∨
  (s.fd0 = lowestFree t ∧ ∃ o, s.fdt = (s.fd0, o) :: t ∧ o.rd = rd ∧ o.wr = wr)

/-- The actions of the error branches and of the steps that neither open nor
close a descriptor. -/
def handlerEvent : Event → Bool
  | Event.sys_signal _ _ => true
  | Event.perror _ => true
  | Event.tst_resm _ _ => true
  | Event.sys_unlink _ _ => true
  | Event.tst_rmdir => true
  | Event.sys_write _ _ _ => true
  | Event.sys_lseek _ _ _ => true
  | Event.sys_writev _ _ _ => true
  | Event.sys_read _ _ _ => true
  | _ => false

/-- A well-formed table of read-write descriptors: every descriptor is 3 or
above, no descriptor occurs twice, and every one is open for reading and
writing. -/
def RwTable (t : List (Int × OFD)) : Prop :=
  (∀ p ∈ t, 3 ≤ p.1) ∧ (t.map Prod.fst).Nodup ∧ (∀ p ∈ t, p.2.rd = true ∧ p.2.wr = true)

/-! ## Sample environments -/

/-- A pass in which every preparatory call succeeds, the vectored write fails
with `EFAULT` and the read past the first unit returns 0. -/
def okIter : IterEnv where
  sigterm := none
  sigpipe := none
  open1 := none
  write1 := ⟨8192, 0⟩
  close1 := ⟨0, 0⟩
  open2 := none
  lseek1 := ⟨0, 0⟩
  writev := ⟨-1, 14⟩
  writev_data := []
  writev_after := none
  lseek2 := ⟨8192, 0⟩
  read1 := ⟨0, 0⟩
  unlink := fun _ => ⟨0, 0⟩

/-- A run of two such passes by process 1234; the final `close(fd[1])` fails
with `EBADF` (9). -/
def okEnv : Env where
  pid := 1234
  mmap_ret := 4096
  iters := [okIter, okIter]
  close_fd0 := ⟨0, 0⟩
  close_fd1 := ⟨-1, 9⟩
  unlink := ⟨0, 0⟩

/-- A pass in which the write-only open fails with `ENOSPC` (28): the file is
not created, so every `unlink` fails with `ENOENT` (2), and every call on the
descriptor -1 fails with `EBADF` (9). -/
def openFailIter : IterEnv where
  sigterm := none
  sigpipe := none
  open1 := some 28
  write1 := ⟨-1, 9⟩
  close1 := ⟨-1, 9⟩
  open2 := none
  lseek1 := ⟨-1, 9⟩
  writev := ⟨-1, 9⟩
  writev_data := []
  writev_after := none
  lseek2 := ⟨-1, 9⟩
  read1 := ⟨-1, 9⟩
  unlink := fun _ => ⟨-1, 2⟩

/-! ## Basic facts -/

@[simp] theorem skip_apply (s : St) : skip s = ([], s) := rfl

@[simp] theorem andThen_fst (p q : Prog) (s : St) :
    (andThen p q s).1 = (p s).1 ++ (q (p s).2).1 := rfl

@[simp] theorem andThen_snd (p q : Prog) (s : St) :
    (andThen p q s).2 = (q (p s).2).2 := rfl

@[simp] theorem block_nil : block [] = skip := rfl

@[simp] theorem block_cons (p : Prog) (ps : List Prog) :
    block (p :: ps) = andThen p (block ps) := rfl

@[simp] theorem emit_apply (ev : Event) (s : St) : emit ev s = ([ev], s) := rfl

@[simp] theorem tst_resm_apply (t : TType) (msg : St → String) (s : St) :
    tst_resm t msg s = ([Event.tst_resm t (msg s)], s) := rfl

theorem cond_apply (c : St → Bool) (p q : Prog) (s : St) :
    cond c p q s = if c s then p s else q s := rfl

@[simp] theorem cond_true (c : St → Bool) (p q : Prog) (s : St) (h : c s = true) :
    cond c p q s = p s := by simp [cond, h]

@[simp] theorem cond_false (c : St → Bool) (p q : Prog) (s : St) (h : c s = false) :
    cond c p q s = q s := by simp [cond, h]

theorem setErrno_fd0 (r : SysRes) (s : St) : (setErrno r s).fd0 = s.fd0 := by
  unfold setErrno; split <;> rfl

theorem TEST_writev_fd0 (r : SysRes) (d : List Nat) (a : Option (List Nat)) (s : St) :
    (TEST_writev r d a s).2.fd0 = s.fd0 := by
  simp only [TEST_writev, setErrno_fd0]
  split
  · split
    · split <;> rfl
    · split <;> rfl
  · rfl

@[simp] theorem setErrno_neg (r : SysRes) (s : St) (h : r.ret < 0) :
    setErrno r s = { s with errno := r.errno } := by simp [setErrno, h]

@[simp] theorem setErrno_nonneg (r : SysRes) (s : St) (h : ¬ r.ret < 0) :
    setErrno r s = s := by simp [setErrno, h]

theorem sys_lseek_fd0 (fd : St → Int) (n : Nat) (r : SysRes) (s : St) :
    (sys_lseek fd n r s).2.fd0 = s.fd0 := by
  simp only [sys_lseek, setErrno_fd0]
  split
  · split <;> rfl
  · rfl

theorem sys_lseek_errno (fd : St → Int) (n : Nat) (r : SysRes) (s : St) (h : r.ret < 0) :
    (sys_lseek fd n r s).2.errno = r.errno := by
  simp [sys_lseek, h]

theorem l_seek_fst (fd : St → Int) (n : Nat) (r : SysRes) (s : St) :
    (l_seek fd n r s).1 = Event.sys_lseek (fd s) n r.ret ::
      (if r.ret < 0 then [Event.tst_resm TType.TFAIL ("lseek Failed : errno = " ++ fmt_d r.errno)]
       else []) := by
  by_cases h : r.ret < 0
  · simp [l_seek, h, sys_lseek_errno]
    simp [sys_lseek]
  · simp [l_seek, h]
    simp [sys_lseek]

theorem l_seek_fd0 (fd : St → Int) (n : Nat) (r : SysRes) (s : St) :
    (l_seek fd n r s).2.fd0 = s.fd0 := by
  by_cases h : r.ret < 0 <;> simp [l_seek, h, sys_lseek_fd0]

theorem probe_fst (e : IterEnv) (s : St) : (probe e s).1 = probeEvents e s.fd0 := by
  have h0 : (TEST_writev e.writev e.writev_data e.writev_after s).1
      = [Event.sys_writev s.fd0 2 e.writev.ret] := rfl
  have h1 : (TEST_writev e.writev e.writev_data e.writev_after s).2.TEST_RETURN
      = e.writev.ret := rfl
  have h2 : (TEST_writev e.writev e.writev_data e.writev_after s).2.TEST_ERRNO
      = (setErrno e.writev s).errno := rfl
  have h3 : ∀ t : St, (sys_read e.read1 t).1 = [Event.sys_read t.fd0 CHUNK e.read1.ret] :=
    fun _ => rfl
  by_cases hr : e.writev.ret < 0
  · by_cases he : e.writev.errno = EFAULT <;> by_cases hn : e.read1.ret = 0 <;>
      simp [probe, probeEvents, h0, h1, h2, h3, hr, he, hn, l_seek_fst, l_seek_fd0,
        TEST_writev_fd0]
  · simp [probe, probeEvents, h0, h1, hr]

theorem AllEv_nop (Q : Event → Prop) : AllEv Q skip := by
  intro s ev h; simp at h

theorem AllEv_seq {Q : Event → Prop} {p q : Prog} (hp : AllEv Q p) (hq : AllEv Q q) :
    AllEv Q (andThen p q) := by
  intro s ev h
  simp only [andThen_fst, List.mem_append] at h
  rcases h with h | h
  · exact hp s ev h
  · exact hq _ ev h

theorem AllEv_ite {Q : Event → Prop} {c : St → Bool} {p q : Prog} (hp : AllEv Q p)
    (hq : AllEv Q q) : AllEv Q (cond c p q) := by
  intro s ev h
  rw [cond_apply] at h
  split at h
  · exact hp s ev h
  · exact hq s ev h

theorem AllEv_single {Q : Event → Prop} {p : Prog} (f : St → Event)
    (h1 : ∀ s, (p s).1 = [f s]) (h2 : ∀ s, Q (f s)) : AllEv Q p := by
  intro s ev h
  rw [h1 s, List.mem_singleton] at h
  subst h
  exact h2 s

theorem AllEv_silent {Q : Event → Prop} {p : Prog} (h1 : ∀ s, (p s).1 = []) : AllEv Q p := by
  intro s ev h
  rw [h1 s] at h
  simp at h

@[simp] theorem sys_signal_fst (sig : Int) (r : Option Int) (s : St) :
    (sys_signal sig r s).1 = [Event.sys_signal sig r.isNone] := rfl

theorem open_fd0_fst (c r w : Bool) (inj : Option Int) (s : St) :
    (open_fd0 c r w inj s).1 =
      [Event.sys_open s.f_name c r w (open_fd0 c r w inj s).2.fd0] := by
  unfold open_fd0
  split
  · rfl
  · split
    · rfl
    · split <;> rfl

@[simp] theorem sys_write_fst (r : SysRes) (s : St) :
    (sys_write r s).1 = [Event.sys_write s.fd0 K_1 r.ret] := rfl

@[simp] theorem sys_close_fst (fd : St → Int) (r : SysRes) (s : St) :
    (sys_close fd r s).1 = [Event.sys_close (fd s) r.ret] := rfl

@[simp] theorem sys_lseek_fst (fd : St → Int) (n : Nat) (r : SysRes) (s : St) :
    (sys_lseek fd n r s).1 = [Event.sys_lseek (fd s) n r.ret] := rfl

@[simp] theorem TEST_writev_fst (r : SysRes) (d : List Nat) (a : Option (List Nat)) (s : St) :
    (TEST_writev r d a s).1 = [Event.sys_writev s.fd0 2 r.ret] := rfl

@[simp] theorem sys_read_fst (r : SysRes) (s : St) :
    (sys_read r s).1 = [Event.sys_read s.fd0 CHUNK r.ret] := rfl

@[simp] theorem sys_unlink_fst (r : SysRes) (s : St) :
    (sys_unlink r s).1 = [Event.sys_unlink s.f_name r.ret] := rfl

theorem cleanup_AllEv : ∀ u, AllEv (fun ev => prepEvent ev = true) (cleanup u) := by
  intro u
  simp only [cleanup, block_cons, block_nil]
  repeat (first
    | with_reducible apply AllEv_seq
    | with_reducible apply AllEv_ite
    | with_reducible exact AllEv_nop _
    | exact AllEv_single _ (fun _ => rfl) (fun _ => rfl))

theorem prep_AllEv (e : IterEnv) : AllEv (fun ev => prepEvent ev = true) (prep e) := by
  simp only [prep, prep_signals, prep_file, after_wopen, after_close, after_reopen, l_seek,
    block_cons, block_nil]
  repeat (first
    | with_reducible apply AllEv_seq
    | with_reducible apply AllEv_ite
    | with_reducible exact AllEv_nop _
    | with_reducible exact cleanup_AllEv _
    | exact AllEv_silent (fun _ => rfl)
    | exact AllEv_single _ (fun _ => rfl) (fun _ => rfl)
    | exact AllEv_single _ (open_fd0_fst _ _ _ _) (fun _ => rfl))

theorem digitVal_digitChar (d : Nat) (h : d < 10) : digitVal (digitChar d) = d := by
  interval_cases d <;> rfl

theorem digitChar_ne_minus (d : Nat) (h : d < 10) : digitChar d ≠ '-' := by
  interval_cases d <;> decide

theorem decValue_append_single (cs : List Char) (c : Char) :
    decValue (cs ++ [c]) = 10 * decValue cs + digitVal c := by
  simp [decValue, List.foldl_append]

theorem decValue_decDigits (fuel n : Nat) (h : n < fuel) : decValue (decDigits fuel n) = n := by
  induction fuel generalizing n with
  | zero => omega
  | succ k ih =>
    unfold decDigits
    split
    · rename_i h10
      simp [decValue, digitVal_digitChar n h10]
    · rename_i h10
      rw [decValue_append_single, ih (n / 10) (by omega),
        digitVal_digitChar (n % 10) (Nat.mod_lt _ (by norm_num))]
      omega

theorem decDigits_head (fuel n : Nat) (h : n < fuel) :
    ∃ d cs, d < 10 ∧ decDigits fuel n = digitChar d :: cs := by
  induction fuel generalizing n with
  | zero => omega
  | succ k ih =>
    unfold decDigits
    split
    · rename_i h10
      exact ⟨n, [], h10, rfl⟩
    · rename_i h10
      obtain ⟨d, cs, hd, hcs⟩ := ih (n / 10) (by omega)
      exact ⟨d, cs ++ [digitChar (n % 10)], hd, by rw [hcs]; rfl⟩

theorem fmt_d_chars_injective (i j : Int) (h : fmt_d_chars i = fmt_d_chars j) : i = j := by
  unfold fmt_d_chars at h
  by_cases hi : i < 0 <;> by_cases hj : j < 0
  · simp only [hi, hj, if_true, List.cons.injEq, true_and] at h
    have := congrArg decValue h
    rw [decValue_decDigits _ _ (by omega), decValue_decDigits _ _ (by omega)] at this
    omega
  · simp only [hi, hj, if_true, if_false] at h
    obtain ⟨d, cs, hd, hcs⟩ := decDigits_head (j.natAbs + 1) j.natAbs (by omega)
    rw [hcs] at h
    injection h with h1 _
    exact absurd h1.symm (digitChar_ne_minus d hd)
  · simp only [hi, hj, if_true, if_false] at h
    obtain ⟨d, cs, hd, hcs⟩ := decDigits_head (i.natAbs + 1) i.natAbs (by omega)
    rw [hcs] at h
    injection h with h1 _
    exact absurd h1 (digitChar_ne_minus d hd)
  · simp only [hi, hj, if_false] at h
    have := congrArg decValue h
    rw [decValue_decDigits _ _ (by omega), decValue_decDigits _ _ (by omega)] at this
    omega

theorem fmt_d_injective (i j : Int) (h : fmt_d i = fmt_d j) : i = j := by
  apply fmt_d_chars_injective
  exact congrArg String.data h

theorem setup_f_name (pid mm : Int) (s : St) :
    (setup pid mm s).2.f_name = DATA_FILE ++ "." ++ fmt_d pid := by
  by_cases h : mm = -1 <;> simp [setup, h]

theorem f_name_unique (p q mm1 mm2 : Int) (s1 s2 : St) (h : p ≠ q) :
    (setup p mm1 s1).2.f_name ≠ (setup q mm2 s2).2.f_name := by
  rw [setup_f_name, setup_f_name]
  intro heq
  apply h
  apply fmt_d_injective
  have := congrArg String.data heq
  simp only [String.data_append, List.append_cancel_left_eq] at this
  exact String.ext this

theorem lowestFree_ge (t : List (Int × OFD)) : 3 ≤ lowestFree t := by
  unfold lowestFree
  split <;> omega

theorem lowestFree_fresh (t : List (Int × OFD)) : ∀ p ∈ t, p.1 ≠ lowestFree t := by
  intro p hp
  unfold lowestFree
  split
  · rename_i i hi
    have h := List.find?_some hi
    simp only [fdFree, Bool.not_eq_true', List.any_eq_false, beq_iff_eq] at h
    exact h p hp
  · rename_i hnone
    exfalso
    rw [List.find?_eq_none] at hnone
    have hsub : (List.range (t.length + 1)).map (fun i => ((i + 3 : Nat) : Int))
        ⊆ t.map Prod.fst := by
      intro x hx
      rw [List.mem_map] at hx
      obtain ⟨i, hi, rfl⟩ := hx
      have h := hnone i hi
      simp only [fdFree, Bool.not_eq_true', Bool.not_eq_false, List.any_eq_true,
        beq_iff_eq] at h
      obtain ⟨q, hq, hq2⟩ := h
      rw [List.mem_map]
      exact ⟨q, hq, hq2⟩
    have hnd : ((List.range (t.length + 1)).map (fun i => ((i + 3 : Nat) : Int))).Nodup := by
      apply List.Nodup.map _ (List.nodup_range _)
      intro a b hab
      simp only at hab
      omega
    have := (List.subperm_of_subset hnd hsub).length_le
    simp at this

@[simp] theorem lowestFree_not_neg (t : List (Int × OFD)) : ¬ lowestFree t < 0 := by
  have := lowestFree_ge t
  omega

theorem fdDel_of_fresh (x : Int) (t : List (Int × OFD)) (h : ∀ p ∈ t, p.1 ≠ x) :
    fdDel x t = t := by
  unfold fdDel
  rw [List.filter_eq_self]
  intro p hp
  simpa using h p hp

theorem fdSet_of_fresh (x : Int) (o : OFD) (t : List (Int × OFD)) (h : ∀ p ∈ t, p.1 ≠ x) :
    fdSet x o t = t := by
  unfold fdSet
  conv_rhs => rw [← List.map_id t]
  apply List.map_congr_left
  intro p hp
  simp [h p hp]

theorem lookup_of_fresh (x : Int) (t : List (Int × OFD)) (h : ∀ p ∈ t, p.1 ≠ x) :
    t.lookup x = none := by
  induction t with
  | nil => rfl
  | cons p t ih =>
    obtain ⟨k, v⟩ := p
    have hk : k ≠ x := h (k, v) (List.mem_cons_self _ _)
    have hk2 : (x == k) = false := by simpa using fun h2 => hk h2.symm
    rw [List.lookup_cons, hk2]
    exact ih (fun q hq => h q (List.mem_cons_of_mem _ hq))

@[simp] theorem lookup_cons_self (x : Int) (o : OFD) (t : List (Int × OFD)) :
    ((x, o) :: t).lookup x = some o := by
  simp [List.lookup_cons]

@[simp] theorem fdDel_lowestFree_cons (o : OFD) (t : List (Int × OFD)) :
    fdDel (lowestFree t) ((lowestFree t, o) :: t) = t := by
  have := fdDel_of_fresh _ t (lowestFree_fresh t)
  unfold fdDel at this ⊢
  simp [List.filter_cons, this]

@[simp] theorem fdSet_lowestFree_cons (o o2 : OFD) (t : List (Int × OFD)) :
    fdSet (lowestFree t) o2 ((lowestFree t, o) :: t) = (lowestFree t, o2) :: t := by
  have := fdSet_of_fresh _ o2 t (lowestFree_fresh t)
  unfold fdSet at this ⊢
  simp [this]

theorem neg_one_fresh (t : List (Int × OFD)) (h : ∀ p ∈ t, 3 ≤ p.1) : ∀ p ∈ t, p.1 ≠ -1 := by
  intro p hp
  have := h p hp
  omega

theorem Hoare_nop (P : St → Prop) : Hoare P skip P := fun _ h => h

theorem Hoare_seq {P Q R : St → Prop} {p q : Prog} (hp : Hoare P p Q) (hq : Hoare Q q R) :
    Hoare P (andThen p q) R := fun s h => hq _ (hp s h)

theorem Hoare_ite {P Q : St → Prop} {c : St → Bool} {p q : Prog}
    (hp : Hoare (fun s => P s ∧ c s = true) p Q) (hq : Hoare (fun s => P s ∧ c s = false) q Q) :
    Hoare P (cond c p q) Q := by
  intro s h
  rw [cond_apply]
  split
  · rename_i hc
    exact hp s ⟨h, hc⟩
  · rename_i hc
    exact hq s ⟨h, by simpa using hc⟩

theorem Hoare_weaken {P P2 Q Q2 : St → Prop} {p : Prog} (h : Hoare P p Q)
    (h1 : ∀ s, P2 s → P s) (h2 : ∀ s, Q s → Q2 s) : Hoare P2 p Q2 :=
  fun s hs => h2 _ (h s (h1 s hs))

theorem Hoare_ite_same {P Q : St → Prop} {c : St → Bool} {p q : Prog}
    (hp : Hoare P p Q) (hq : Hoare P q Q) : Hoare P (cond c p q) Q :=
  Hoare_ite (Hoare_weaken hp (fun _ h => h.1) (fun _ h => h))
    (Hoare_weaken hq (fun _ h => h.1) (fun _ h => h))

@[simp] theorem InvK_setErrno (r : SysRes) (s : St) : InvK (setErrno r s) ↔ InvK s := by
  unfold setErrno
  split <;> rfl

@[simp] theorem CurAt0_setErrno (r : SysRes) (s : St) : CurAt0 (setErrno r s) ↔ CurAt0 s := by
  unfold setErrno
  split <;> rfl

theorem InvK_emit (ev : Event) : Hoare InvK (emit ev) InvK := fun _ h => h

theorem InvK_tst_resm (t : TType) (m : St → String) : Hoare InvK (tst_resm t m) InvK :=
  fun _ h => h

theorem InvK_sys_signal (sig : Int) (r : Option Int) : Hoare InvK (sys_signal sig r) InvK := by
  intro s h
  cases r <;> exact h

theorem InvK_sys_unlink (u : SysRes) : Hoare InvK (sys_unlink u) InvK := by
  intro s h
  simp only [sys_unlink, InvK_setErrno]
  split
  · obtain ⟨h1, _, h3, h4⟩ := h
    exact ⟨h1, fun i hi => by simp at hi, h3, h4⟩
  · exact h

theorem InvK_cleanup (u : SysRes) : Hoare InvK (cleanup u) InvK := by
  simp only [cleanup, block_cons, block_nil]
  exact Hoare_seq (InvK_sys_unlink u)
    (Hoare_seq (Hoare_ite_same (InvK_tst_resm _ _) (Hoare_nop _))
      (Hoare_seq (InvK_emit _) (Hoare_nop _)))

theorem InvK_report_cleanup (t : TType) (m : St → String) (u : SysRes) :
    Hoare InvK (block [tst_resm t m, cleanup u]) InvK := by
  simp only [block_cons, block_nil]
  exact Hoare_seq (InvK_tst_resm _ _) (Hoare_seq (InvK_cleanup u) (Hoare_nop _))

theorem InvK_prep_signals (e : IterEnv) : Hoare InvK (prep_signals e) InvK := by
  simp only [prep_signals, block_cons, block_nil]
  refine Hoare_seq (Q := InvK) (fun _ h => h) ?_
  refine Hoare_seq (InvK_sys_signal _ _) ?_
  refine Hoare_seq (Hoare_ite_same
    (Hoare_seq (InvK_emit _) (Hoare_seq (InvK_tst_resm _ _)
      (Hoare_seq (InvK_cleanup _) (Hoare_nop _)))) (Hoare_nop _)) ?_
  refine Hoare_seq (InvK_sys_signal _ _) ?_
  refine Hoare_seq (Hoare_ite_same
    (Hoare_seq (InvK_emit _) (Hoare_seq (InvK_tst_resm _ _)
      (Hoare_seq (InvK_cleanup _) (Hoare_nop _)))) (Hoare_nop _)) ?_
  exact Hoare_nop _

theorem mem_fdSet (x : Int) (o : OFD) (t : List (Int × OFD)) (p : Int × OFD)
    (h : p ∈ fdSet x o t) : ∃ q ∈ t, p.1 = q.1 := by
  unfold fdSet at h
  rw [List.mem_map] at h
  obtain ⟨q, hq, rfl⟩ := h
  refine ⟨q, hq, ?_⟩
  split <;> rfl

theorem keys_fdSet (x : Int) (o : OFD) (t : List (Int × OFD)) (h : ∀ p ∈ t, 3 ≤ p.1) :
    ∀ p ∈ fdSet x o t, 3 ≤ p.1 := by
  intro p hp
  obtain ⟨q, hq, he⟩ := mem_fdSet x o t p hp
  rw [he]
  exact h q hq

theorem lookup_fdSet_self (x : Int) (o o2 : OFD) (t : List (Int × OFD))
    (h : t.lookup x = some o) : (fdSet x o2 t).lookup x = some o2 := by
  induction t with
  | nil => simp at h
  | cons p t ih =>
    obtain ⟨k, v⟩ := p
    by_cases hk : k = x
    · subst hk
      simp [fdSet, List.lookup_cons]
    · have hk2 : (x == k) = false := by simpa using fun h2 => hk h2.symm
      rw [List.lookup_cons, hk2] at h
      have := ih h
      unfold fdSet at this ⊢
      simp only [List.map_cons, hk, if_false, List.lookup_cons, hk2]
      exact this

theorem InvK_open_fd0 (c r w : Bool) (inj : Option Int) :
    Hoare InvK (open_fd0 c r w inj) (fun s => InvK s ∧ CurAt0 s) := by
  intro s h
  obtain ⟨h1, h2, h3, h4⟩ := h
  have hneg : ∀ o, s.fdt.lookup (-1) = some o → o.pos = 0 := by
    intro o ho
    rw [lookup_of_fresh _ _ (neg_one_fresh _ h3)] at ho
    simp at ho
  unfold open_fd0
  split
  · exact ⟨⟨h1, h2, h3, h4⟩, hneg⟩
  · split
    · rename_i i hi
      refine ⟨⟨h1, h2, ?_, h4⟩, ?_⟩
      · intro p hp
        simp only [List.mem_cons] at hp
        rcases hp with rfl | hp
        · exact lowestFree_ge _
        · exact h3 p hp
      · intro o ho
        simp only [lookup_cons_self, Option.some.injEq] at ho
        rw [← ho]
    · split
      · refine ⟨⟨?_, ?_, ?_, h4⟩, ?_⟩
        · intro c hc
          simp only [List.mem_append, List.mem_singleton] at hc
          rcases hc with hc | rfl
          · exact h1 c hc
          · simp
        · intro i hi
          simp only [Option.some.injEq] at hi
          simp [← hi]
        · intro p hp
          simp only [List.mem_cons] at hp
          rcases hp with rfl | hp
          · exact lowestFree_ge _
          · exact h3 p hp
        · intro o ho
          simp only [lookup_cons_self, Option.some.injEq] at ho
          rw [← ho]
      · exact ⟨⟨h1, h2, h3, h4⟩, hneg⟩

theorem pwrite_zero_length (c d : List Nat) (hc : c.length ≤ K_1) (hd : d.length ≤ K_1) :
    (pwrite c 0 d).length ≤ K_1 := by
  unfold pwrite
  split
  · exact hc
  · simp only [List.take_zero, Nat.zero_sub, List.replicate_zero, List.nil_append,
      Nat.zero_add, List.length_append, List.length_drop]
    omega

theorem getD_length_le (l : List (List Nat)) (i : Nat) (h : ∀ c ∈ l, c.length ≤ K_1) :
    (l.getD i []).length ≤ K_1 := by
  rw [List.getD_eq_getElem?_getD]
  cases hi : l[i]? with
  | none => simp
  | some c =>
    simp only [Option.getD_some]
    exact h c (List.getElem?_mem hi)

theorem set_length_le (l : List (List Nat)) (i : Nat) (x : List Nat)
    (h : ∀ c ∈ l, c.length ≤ K_1) (hx : x.length ≤ K_1) :
    ∀ c ∈ l.set i x, c.length ≤ K_1 := by
  intro c hc
  rcases List.mem_or_eq_of_mem_set hc with hc | rfl
  · exact h c hc
  · exact hx

theorem InvK_sys_write (r : SysRes) :
    Hoare (fun s => InvK s ∧ CurAt0 s) (sys_write r) InvK := by
  intro s h
  obtain ⟨⟨h1, h2, h3, h4⟩, h5⟩ := h
  simp only [sys_write, InvK_setErrno]
  split
  · rename_i o ho
    split
    · have hp := h5 o ho
      refine ⟨?_, ?_, keys_fdSet _ _ _ h3, h4⟩
      · apply set_length_le _ _ _ h1
        rw [hp]
        apply pwrite_zero_length _ _ (getD_length_le _ _ h1)
        simp only [List.length_take]
        omega
      · intro i hi
        simp only [List.length_set]
        exact h2 i hi
    · exact ⟨h1, h2, h3, h4⟩
  · exact ⟨h1, h2, h3, h4⟩

theorem InvK_sys_close (fd : St → Int) (r : SysRes) : Hoare InvK (sys_close fd r) InvK := by
  intro s h
  obtain ⟨h1, h2, h3, h4⟩ := h
  simp only [sys_close, InvK_setErrno]
  refine ⟨h1, h2, ?_, h4⟩
  intro p hp
  unfold fdDel at hp
  exact h3 p (List.mem_of_mem_filter hp)

theorem InvK_sys_lseek (fd : St → Int) (n : Nat) (r : SysRes) :
    Hoare InvK (sys_lseek fd n r) InvK := by
  intro s h
  obtain ⟨h1, h2, h3, h4⟩ := h
  simp only [sys_lseek, InvK_setErrno]
  split
  · split
    · exact ⟨h1, h2, keys_fdSet _ _ _ h3, h4⟩
    · exact ⟨h1, h2, h3, h4⟩
  · exact ⟨h1, h2, h3, h4⟩

theorem CurAt0_sys_lseek (r : SysRes) :
    Hoare CurAt0 (sys_lseek (fun s => s.fd0) 0 r) CurAt0 := by
  intro s h
  simp only [sys_lseek, CurAt0_setErrno]
  split
  · rename_i o ho
    split
    · intro o2 ho2
      have := lookup_fdSet_self s.fd0 o { o with pos := 0 } s.fdt ho
      simp only [this, Option.some.injEq] at ho2
      rw [← ho2]
    · exact h
  · exact h

theorem InvK_l_seek (fd : St → Int) (n : Nat) (r : SysRes) : Hoare InvK (l_seek fd n r) InvK := by
  simp only [l_seek, block_cons, block_nil]
  exact Hoare_seq (InvK_sys_lseek _ _ _)
    (Hoare_seq (Hoare_ite_same (InvK_tst_resm _ _) (Hoare_nop _)) (Hoare_nop _))

theorem CurAt0_l_seek (r : SysRes) : Hoare CurAt0 (l_seek (fun s => s.fd0) 0 r) CurAt0 := by
  simp only [l_seek, block_cons, block_nil]
  exact Hoare_seq (CurAt0_sys_lseek _)
    (Hoare_seq (Hoare_ite_same (fun _ h => h) (Hoare_nop _)) (Hoare_nop _))

theorem Hoare_and {P1 P2 Q1 Q2 : St → Prop} {p : Prog} (h1 : Hoare P1 p Q1)
    (h2 : Hoare P2 p Q2) : Hoare (fun s => P1 s ∧ P2 s) p (fun s => Q1 s ∧ Q2 s) :=
  fun s h => ⟨h1 s h.1, h2 s h.2⟩

theorem CurAt0_cleanup (u : SysRes) : Hoare CurAt0 (cleanup u) CurAt0 := by
  intro s h
  by_cases h1 : u.ret < 0
  · have h2 : ¬ (0 ≤ u.ret) := by omega
    simpa [cleanup, sys_unlink, h1, h2, CurAt0] using h
  · have h2 : 0 ≤ u.ret := by omega
    simpa [cleanup, sys_unlink, h1, h2, CurAt0] using h

theorem InvK_prep_file (e : IterEnv) :
    Hoare InvK (prep_file e) (fun s => InvK s ∧ CurAt0 s) := by
  simp only [prep_file, after_wopen, after_close, after_reopen, block_cons, block_nil]
  refine Hoare_seq (Q := InvK) (fun _ h => h) ?_
  refine Hoare_seq (InvK_open_fd0 _ _ _ _) ?_
  refine Hoare_seq (Q := InvK) (Hoare_ite_same ?_ ?_) ?_
  · exact Hoare_seq (Q := InvK) (fun _ h => h.1)
      (Hoare_seq (InvK_cleanup _) (Hoare_nop _))
  · exact Hoare_seq (InvK_sys_write _)
      (Hoare_seq (Hoare_ite_same
        (Hoare_seq (InvK_tst_resm _ _) (Hoare_seq (InvK_cleanup _) (Hoare_nop _)))
        (Hoare_nop _)) (Hoare_nop _))
  refine Hoare_seq (InvK_sys_close _ _) ?_
  refine Hoare_seq (Hoare_ite_same
    (Hoare_seq (InvK_tst_resm _ _) (Hoare_seq (InvK_cleanup _) (Hoare_nop _)))
    (Hoare_nop _)) ?_
  refine Hoare_seq (InvK_open_fd0 _ _ _ _) ?_
  refine Hoare_seq (Q := fun s => InvK s ∧ CurAt0 s) (Hoare_ite_same ?_ (Hoare_nop _)) ?_
  · exact Hoare_seq (Q := fun s => InvK s ∧ CurAt0 s) (fun _ h => h)
      (Hoare_seq (Hoare_and (InvK_cleanup _) (CurAt0_cleanup _)) (Hoare_nop _))
  exact Hoare_seq (Hoare_and (InvK_l_seek _ _ _) (CurAt0_l_seek _)) (Hoare_nop _)

theorem InvK_TEST_writev (r : SysRes) (d : List Nat) (a : Option (List Nat))
    (hw : r.ret < 0 → a = none) :
    Hoare (fun s => InvK s ∧ CurAt0 s) (TEST_writev r d a) InvK := by
  intro s h
  obtain ⟨⟨h1, h2, h3, h4⟩, h5⟩ := h
  change InvK (setErrno r _)
  rw [InvK_setErrno]
  split
  · rename_i o ho
    split
    · rename_i hr
      rw [hw hr]
      exact ⟨h1, h2, h3, h4⟩
    · split
      · have hp := h5 o ho
        refine ⟨?_, ?_, keys_fdSet _ _ _ h3, h4⟩
        · apply set_length_le _ _ _ h1
          rw [hp]
          apply pwrite_zero_length _ _ (getD_length_le _ _ h1)
          simp only [List.length_take]
          omega
        · intro i hi
          simp only [List.length_set]
          exact h2 i hi
      · exact ⟨h1, h2, h3, h4⟩
  · exact ⟨h1, h2, h3, h4⟩

theorem InvK_sys_read (r : SysRes) : Hoare InvK (sys_read r) InvK := by
  intro s h
  obtain ⟨h1, h2, h3, h4⟩ := h
  simp only [sys_read, InvK_setErrno]
  split
  · split
    · exact ⟨h1, h2, keys_fdSet _ _ _ h3, h4⟩
    · exact ⟨h1, h2, h3, h4⟩
  · exact ⟨h1, h2, h3, h4⟩

theorem InvK_probe (e : IterEnv) (hw : e.writev.ret < 0 → e.writev_after = none) :
    Hoare (fun s => InvK s ∧ CurAt0 s) (probe e) InvK := by
  simp only [probe, block_cons, block_nil]
  refine Hoare_seq (InvK_TEST_writev _ _ _ hw) ?_
  refine Hoare_seq (Hoare_ite_same ?_ (InvK_tst_resm _ _)) (Hoare_nop _)
  refine Hoare_seq (Hoare_ite_same (InvK_tst_resm _ _) (InvK_tst_resm _ _)) ?_
  refine Hoare_seq (InvK_l_seek _ _ _) ?_
  refine Hoare_seq (InvK_sys_read _) ?_
  exact Hoare_seq (Hoare_ite_same (InvK_tst_resm _ _) (Hoare_nop _)) (Hoare_nop _)

theorem InvK_main_body (e : IterEnv) (hw : e.writev.ret < 0 → e.writev_after = none) :
    Hoare InvK (main_body e) InvK :=
  Hoare_seq (Hoare_seq (InvK_prep_signals e) (InvK_prep_file e)) (InvK_probe e hw)

theorem InvK_main_loop (es : List IterEnv)
    (hw : ∀ e ∈ es, e.writev.ret < 0 → e.writev_after = none) :
    Hoare InvK (main_loop es) InvK := by
  induction es with
  | nil => exact Hoare_nop _
  | cons e es ih =>
    simp only [main_loop, List.map_cons, block_cons]
    exact Hoare_seq (InvK_main_body e (hw e (List.mem_cons_self _ _)))
      (ih (fun e2 h2 => hw e2 (List.mem_cons_of_mem _ h2)))

theorem InvK_setup (pid mm : Int) : InvK (setup pid mm init).2 := by
  by_cases h : mm = -1 <;>
    simp [setup, init, InvK, h, CHUNK]

theorem K_1_pos_int : (0 : Int) < (K_1 : Int) := by
  simp [K_1]

theorem pwrite_unit (c : List Nat) (hc : c.length ≤ K_1) :
    pwrite c 0 (List.replicate K_1 0) = List.replicate K_1 0 := by
  unfold pwrite
  have h0 : List.replicate K_1 (0 : Nat) ≠ [] := by
    intro h
    have := congrArg List.length h
    simp only [List.length_replicate, List.length_nil] at this
    unfold K_1 at this
    omega
  rw [if_neg h0]
  simp only [List.take_zero, Nat.zero_sub, List.replicate_zero, List.nil_append,
    Nat.zero_add, List.length_replicate]
  rw [List.drop_eq_nil_of_le hc, List.append_nil]

theorem take_unit : ((List.replicate K_1 (0 : Nat)).take K_1).take (Int.toNat (K_1 : Int))
    = List.replicate K_1 0 := by
  rw [Int.toNat_ofNat, List.take_replicate, List.take_replicate, Nat.min_self, Nat.min_self]

theorem prep_file_ok (e : IterEnv) (s : St) (hI : InvK s)
    (h1 : e.open1 = none) (h2 : e.write1.ret = (K_1 : Int)) (h3 : 0 ≤ e.close1.ret)
    (h4 : e.open2 = none) (h5 : 0 ≤ e.lseek1.ret) :
    ∃ i, (prep_file e s).2.fdt.lookup (prep_file e s).2.fd0 = some ⟨i, 0, true, true⟩ ∧
      (prep_file e s).2.link = some i ∧
      (prep_file e s).2.inodes.getD i [] = List.replicate K_1 0 := by
  obtain ⟨hlen, hlink, hkeys, hio⟩ := hI
  have h3b : ¬ e.close1.ret < 0 := by omega
  have h5b : ¬ e.lseek1.ret < 0 := by omega
  have hk := K_1_pos_int
  cases hl : s.link with
  | none =>
    refine ⟨s.inodes.length, ?_⟩
    simp [prep_file, after_wopen, after_close, after_reopen, zero_bufs, l_seek, open_fd0, sys_write, sys_close, sys_lseek, h1, h2, h3b,
      h4, h5,
      h5b, hl, hk, take_unit, cond_apply, pwrite_unit]
  | some i =>
    have hi := hlink i hl
    refine ⟨i, ?_⟩
    simp [prep_file, after_wopen, after_close, after_reopen, zero_bufs, l_seek, open_fd0, sys_write, sys_close, sys_lseek, h1, h2, h3b,
      h4, h5,
      h5b, hl, hk, take_unit, cond_apply, hi]
    exact pwrite_unit _ (hlen _ (List.getElem_mem _))

theorem cleanup_fst (u : SysRes) (s : St) :
    (cleanup u s).1 = Event.sys_unlink s.f_name u.ret ::
      ((if u.ret < 0 then
          [Event.tst_resm TType.TFAIL
            ("unlink Failed--file = " ++ s.f_name ++ ", errno = " ++ fmt_d u.errno)]
        else []) ++ [Event.tst_rmdir]) := by
  by_cases h : u.ret < 0
  · have h2 : ¬ (0 ≤ u.ret) := by omega
    simp [cleanup, sys_unlink, h, h2]
  · simp [cleanup, h]

theorem Keeps_nop {α : Type} (f : St → α) : Keeps f skip := fun _ => rfl

theorem Keeps_seq {α : Type} {f : St → α} {p q : Prog} (hp : Keeps f p) (hq : Keeps f q) :
    Keeps f (andThen p q) := fun s => (hq _).trans (hp s)

theorem Keeps_ite {α : Type} {f : St → α} {c : St → Bool} {p q : Prog} (hp : Keeps f p)
    (hq : Keeps f q) : Keeps f (cond c p q) := by
  intro s
  rw [cond_apply]
  split
  · exact hp s
  · exact hq s

theorem setErrno_f_name (r : SysRes) (s : St) : (setErrno r s).f_name = s.f_name := by
  unfold setErrno; split <;> rfl

theorem setErrno_fd1 (r : SysRes) (s : St) : (setErrno r s).fd1 = s.fd1 := by
  unfold setErrno; split <;> rfl

theorem name_sys_signal (sig : Int) (r : Option Int) :
    Keeps (fun s => s.f_name) (sys_signal sig r) := by
  intro s; cases r <;> rfl

theorem name_sys_unlink (u : SysRes) : Keeps (fun s => s.f_name) (sys_unlink u) := by
  intro s
  simp only [sys_unlink, setErrno_f_name]
  split <;> rfl

theorem name_open_fd0 (c r w : Bool) (inj : Option Int) :
    Keeps (fun s => s.f_name) (open_fd0 c r w inj) := by
  intro s
  unfold open_fd0
  split
  · rfl
  · split
    · rfl
    · split <;> rfl

theorem name_sys_write (r : SysRes) : Keeps (fun s => s.f_name) (sys_write r) := by
  intro s
  simp only [sys_write, setErrno_f_name]
  split
  · split <;> rfl
  · rfl

theorem name_sys_close (fd : St → Int) (r : SysRes) :
    Keeps (fun s => s.f_name) (sys_close fd r) := by
  intro s
  simp only [sys_close, setErrno_f_name]

theorem name_sys_lseek (fd : St → Int) (n : Nat) (r : SysRes) :
    Keeps (fun s => s.f_name) (sys_lseek fd n r) := by
  intro s
  simp only [sys_lseek, setErrno_f_name]
  split
  · split <;> rfl
  · rfl

theorem name_TEST_writev (r : SysRes) (d : List Nat) (a : Option (List Nat)) :
    Keeps (fun s => s.f_name) (TEST_writev r d a) := by
  intro s
  simp only [TEST_writev, setErrno_f_name]
  split
  · split
    · split <;> rfl
    · split <;> rfl
  · rfl

theorem name_sys_read (r : SysRes) : Keeps (fun s => s.f_name) (sys_read r) := by
  intro s
  simp only [sys_read, setErrno_f_name]
  split
  · split <;> rfl
  · rfl

theorem name_emit (ev : Event) : Keeps (fun s => s.f_name) (emit ev) := fun _ => rfl

theorem name_tst_resm (t : TType) (m : St → String) :
    Keeps (fun s => s.f_name) (tst_resm t m) := fun _ => rfl

theorem name_set_fd1 :
    Keeps (fun s => s.f_name) reset_fd1 := fun _ => rfl

theorem name_memset :
    Keeps (fun s => s.f_name) zero_bufs := fun _ => rfl

theorem name_cleanup (u : SysRes) : Keeps (fun s => s.f_name) (cleanup u) := by
  simp only [cleanup, block_cons, block_nil]
  repeat (first
    | with_reducible apply Keeps_seq
    | with_reducible apply Keeps_ite
    | with_reducible exact Keeps_nop (fun s => s.f_name)
    | with_reducible exact name_sys_signal _ _
    | with_reducible exact name_sys_unlink _
    | with_reducible exact name_open_fd0 _ _ _ _
    | with_reducible exact name_sys_write _
    | with_reducible exact name_sys_close _ _
    | with_reducible exact name_sys_lseek _ _ _
    | with_reducible exact name_TEST_writev _ _ _
    | with_reducible exact name_sys_read _
    | with_reducible exact name_emit _
    | with_reducible exact name_tst_resm _ _
    | with_reducible exact name_set_fd1
    | with_reducible exact name_memset)

theorem name_l_seek (fd : St → Int) (n : Nat) (r : SysRes) :
    Keeps (fun s => s.f_name) (l_seek fd n r) := by
  simp only [l_seek, block_cons, block_nil]
  repeat (first
    | with_reducible apply Keeps_seq
    | with_reducible apply Keeps_ite
    | with_reducible exact Keeps_nop (fun s => s.f_name)
    | with_reducible exact name_sys_signal _ _
    | with_reducible exact name_sys_unlink _
    | with_reducible exact name_open_fd0 _ _ _ _
    | with_reducible exact name_sys_write _
    | with_reducible exact name_sys_close _ _
    | with_reducible exact name_sys_lseek _ _ _
    | with_reducible exact name_TEST_writev _ _ _
    | with_reducible exact name_sys_read _
    | with_reducible exact name_emit _
    | with_reducible exact name_tst_resm _ _
    | with_reducible exact name_set_fd1
    | with_reducible exact name_memset)

theorem name_prep_signals (e : IterEnv) : Keeps (fun s => s.f_name) (prep_signals e) := by
  simp only [prep_signals, block_cons, block_nil]
  repeat (first
    | with_reducible apply Keeps_seq
    | with_reducible apply Keeps_ite
    | with_reducible exact Keeps_nop (fun s => s.f_name)
    | with_reducible exact name_sys_signal _ _
    | with_reducible exact name_sys_unlink _
    | with_reducible exact name_open_fd0 _ _ _ _
    | with_reducible exact name_sys_write _
    | with_reducible exact name_sys_close _ _
    | with_reducible exact name_sys_lseek _ _ _
    | with_reducible exact name_TEST_writev _ _ _
    | with_reducible exact name_sys_read _
    | with_reducible exact name_emit _
    | with_reducible exact name_tst_resm _ _
    | with_reducible exact name_set_fd1
    | with_reducible exact name_memset
    | with_reducible exact name_cleanup _
    | with_reducible exact name_l_seek _ _ _)

theorem name_prep_file (e : IterEnv) : Keeps (fun s => s.f_name) (prep_file e) := by
  simp only [prep_file, after_wopen, after_close, after_reopen, block_cons, block_nil]
  repeat (first
    | with_reducible apply Keeps_seq
    | with_reducible apply Keeps_ite
    | with_reducible exact Keeps_nop (fun s => s.f_name)
    | with_reducible exact name_sys_signal _ _
    | with_reducible exact name_sys_unlink _
    | with_reducible exact name_open_fd0 _ _ _ _
    | with_reducible exact name_sys_write _
    | with_reducible exact name_sys_close _ _
    | with_reducible exact name_sys_lseek _ _ _
    | with_reducible exact name_TEST_writev _ _ _
    | with_reducible exact name_sys_read _
    | with_reducible exact name_emit _
    | with_reducible exact name_tst_resm _ _
    | with_reducible exact name_set_fd1
    | with_reducible exact name_memset
    | with_reducible exact name_cleanup _
    | with_reducible exact name_l_seek _ _ _)

theorem name_probe (e : IterEnv) : Keeps (fun s => s.f_name) (probe e) := by
  simp only [probe, block_cons, block_nil]
  repeat (first
    | with_reducible apply Keeps_seq
    | with_reducible apply Keeps_ite
    | with_reducible exact Keeps_nop (fun s => s.f_name)
    | with_reducible exact name_sys_signal _ _
    | with_reducible exact name_sys_unlink _
    | with_reducible exact name_open_fd0 _ _ _ _
    | with_reducible exact name_sys_write _
    | with_reducible exact name_sys_close _ _
    | with_reducible exact name_sys_lseek _ _ _
    | with_reducible exact name_TEST_writev _ _ _
    | with_reducible exact name_sys_read _
    | with_reducible exact name_emit _
    | with_reducible exact name_tst_resm _ _
    | with_reducible exact name_set_fd1
    | with_reducible exact name_memset
    | with_reducible exact name_cleanup _
    | with_reducible exact name_l_seek _ _ _)

theorem name_main_body (e : IterEnv) : Keeps (fun s => s.f_name) (main_body e) :=
  Keeps_seq (Keeps_seq (name_prep_signals e) (name_prep_file e)) (name_probe e)

theorem name_main_loop (es : List IterEnv) : Keeps (fun s => s.f_name) (main_loop es) := by
  induction es with
  | nil => exact Keeps_nop _
  | cons e es ih =>
    simp only [main_loop, List.map_cons, block_cons]
    exact Keeps_seq (name_main_body e) ih

theorem main_body_fst (e : IterEnv) (s : St) :
    (main_body e s).1 = (prep e s).1 ++ probeEvents e (prep e s).2.fd0 := by
  simp [main_body, probe_fst]

theorem main_loop_cons (e : IterEnv) (es : List IterEnv) :
    main_loop (e :: es) = andThen (main_body e) (main_loop es) := rfl

theorem main_fst (env : Env) (s : St) :
    (main env s).1 = Event.tst_parse_opts :: (setup env.pid env.mmap_ret s).1 ++
      (main_loop env.iters (setup env.pid env.mmap_ret s).2).1 ++
      [Event.sys_close (main_loop env.iters (setup env.pid env.mmap_ret s).2).2.fd0
         env.close_fd0.ret,
       Event.sys_close (main_loop env.iters (setup env.pid env.mmap_ret s).2).2.fd1
         env.close_fd1.ret] ++
      (Event.sys_unlink (setup env.pid env.mmap_ret s).2.f_name env.unlink.ret ::
        ((if env.unlink.ret < 0 then
            [Event.tst_resm TType.TFAIL
              ("unlink Failed--file = " ++ (setup env.pid env.mmap_ret s).2.f_name ++
                ", errno = " ++ fmt_d env.unlink.errno)]
          else []) ++ [Event.tst_rmdir])) ++ [Event.tst_exit] := by
  have hn : ∀ t : St, (sys_close (fun s => s.fd1) env.close_fd1
      (sys_close (fun s => s.fd0) env.close_fd0 t).2).2.f_name = t.f_name := by
    intro t
    exact (name_sys_close _ _ _).trans (name_sys_close _ _ _)
  have hf : ∀ t : St, (sys_close (fun s => s.fd0) env.close_fd0 t).2.fd1 = t.fd1 := by
    intro t
    simp only [sys_close, setErrno_fd1]
  simp [main, cleanup_fst, hn, hf, name_main_loop env.iters _]

theorem setErrno_fdView (r : SysRes) (s : St) : fdView (setErrno r s) = fdView s := by
  unfold setErrno; split <;> rfl

theorem fd_sys_signal (sig : Int) (r : Option Int) : Keeps fdView (sys_signal sig r) := by
  intro s; cases r <;> rfl

theorem fd_sys_unlink (u : SysRes) : Keeps fdView (sys_unlink u) := by
  intro s
  simp only [sys_unlink, setErrno_fdView]
  split <;> rfl

theorem fd_emit (ev : Event) : Keeps fdView (emit ev) := fun _ => rfl

theorem fd_tst_resm (t : TType) (m : St → String) : Keeps fdView (tst_resm t m) := fun _ => rfl

theorem fd_zero_bufs : Keeps fdView zero_bufs := fun _ => rfl

theorem fd_cleanup (u : SysRes) : Keeps fdView (cleanup u) := by
  simp only [cleanup, block_cons, block_nil]
  repeat (first
    | with_reducible apply Keeps_seq
    | with_reducible apply Keeps_ite
    | with_reducible exact Keeps_nop fdView
    | with_reducible exact fd_sys_unlink _
    | with_reducible exact fd_emit _
    | with_reducible exact fd_tst_resm _ _)

theorem fd_after_close (e : IterEnv) : Keeps fdView (after_close e) := by
  simp only [after_close, block_cons, block_nil]
  repeat (first
    | with_reducible apply Keeps_seq
    | with_reducible apply Keeps_ite
    | with_reducible exact Keeps_nop fdView
    | with_reducible exact fd_cleanup _
    | with_reducible exact fd_tst_resm _ _)

theorem fd_after_reopen (e : IterEnv) : Keeps fdView (after_reopen e) := by
  simp only [after_reopen, block_cons, block_nil]
  repeat (first
    | with_reducible apply Keeps_seq
    | with_reducible apply Keeps_ite
    | with_reducible exact Keeps_nop fdView
    | with_reducible exact fd_cleanup _
    | with_reducible exact fd_tst_resm _ _)

theorem fdt_prep_signals (e : IterEnv) : Keeps (fun s => s.fdt) (prep_signals e) := by
  have h1 : Keeps (fun s => s.fdt) reset_fd1 := fun _ => rfl
  have h2 : ∀ sig r, Keeps (fun s => s.fdt) (sys_signal sig r) :=
    fun sig r s => congrArg Prod.snd (fd_sys_signal sig r s)
  have h3 : ∀ u, Keeps (fun s => s.fdt) (cleanup u) :=
    fun u s => congrArg Prod.snd (fd_cleanup u s)
  have h4 : ∀ ev, Keeps (fun s => s.fdt) (emit ev) := fun _ _ => rfl
  have h5 : ∀ t m, Keeps (fun s => s.fdt) (tst_resm t m) := fun _ _ _ => rfl
  simp only [prep_signals, block_cons, block_nil]
  repeat (first
    | with_reducible apply Keeps_seq
    | with_reducible apply Keeps_ite
    | with_reducible exact Keeps_nop _
    | with_reducible exact h1
    | with_reducible exact h2 _ _
    | with_reducible exact h3 _
    | with_reducible exact h4 _
    | with_reducible exact h5 _ _)

theorem Opened_fdView (t : List (Int × OFD)) (rd wr : Bool) (s : St) :
    Opened t rd wr s ↔ ((fdView s).1 = -1 ∧ (fdView s).2 = t) ∨
      ((fdView s).1 = lowestFree t ∧
        ∃ o, (fdView s).2 = ((fdView s).1, o) :: t ∧ o.rd = rd ∧ o.wr = wr) := Iff.rfl

theorem Opened_keeps {p : Prog} (h : Keeps fdView p) (t : List (Int × OFD)) (rd wr : Bool) :
    Hoare (Opened t rd wr) p (Opened t rd wr) := by
  intro s hs
  rw [Opened_fdView] at hs ⊢
  rw [h s]
  exact hs

theorem Opened_open_fd0 (t : List (Int × OFD)) (c rd wr : Bool) (inj : Option Int) :
    Hoare (fun s => s.fdt = t) (open_fd0 c rd wr inj) (Opened t rd wr) := by
  intro s hs
  subst hs
  unfold open_fd0
  split
  · exact Or.inl ⟨rfl, rfl⟩
  · split
    · exact Or.inr ⟨rfl, _, rfl, rfl, rfl⟩
    · split
      · exact Or.inr ⟨rfl, _, rfl, rfl, rfl⟩
      · exact Or.inl ⟨rfl, rfl⟩

@[simp] theorem setErrno_fdt (r : SysRes) (s : St) : (setErrno r s).fdt = s.fdt := by
  unfold setErrno; split <;> rfl

@[simp] theorem setErrno_fd0_eq (r : SysRes) (s : St) : (setErrno r s).fd0 = s.fd0 := by
  unfold setErrno; split <;> rfl

theorem Opened_step (t : List (Int × OFD)) (rd wr : Bool) (s s2 : St)
    (ht : ∀ p ∈ t, 3 ≤ p.1) (hs : Opened t rd wr s) (h0 : s2.fd0 = s.fd0)
    (h1 : s2.fdt = s.fdt ∨ ∃ o n, s.fdt.lookup s.fd0 = some o ∧
      s2.fdt = fdSet s.fd0 { o with pos := n } s.fdt) : Opened t rd wr s2 := by
  rcases h1 with h1 | ⟨o, n, ho, h1⟩
  · rcases hs with ⟨ha, hb⟩ | ⟨ha, o, hb, hc, hd⟩
    · exact Or.inl ⟨h0.trans ha, h1.trans hb⟩
    · exact Or.inr ⟨h0.trans ha, o, by rw [h1, hb, h0], hc, hd⟩
  · rcases hs with ⟨ha, hb⟩ | ⟨ha, o2, hb, hc, hd⟩
    · exfalso
      rw [ha, hb, lookup_of_fresh _ _ (neg_one_fresh _ ht)] at ho
      simp at ho
    · right
      refine ⟨h0.trans ha, ?_⟩
      have hl : s.fdt.lookup s.fd0 = some o2 := by rw [hb]; simp
      rw [ho] at hl
      injection hl with hl
      subst hl
      refine ⟨{ o with pos := n }, ?_, hc, hd⟩
      rw [h1, hb, h0, ha]
      simp

theorem Opened_sys_write (t : List (Int × OFD)) (rd wr : Bool) (ht : ∀ p ∈ t, 3 ≤ p.1)
    (r : SysRes) : Hoare (Opened t rd wr) (sys_write r) (Opened t rd wr) := by
  intro s hs
  apply Opened_step t rd wr s _ ht hs
  · simp only [sys_write, setErrno_fd0_eq]
    split
    · split <;> rfl
    · rfl
  · simp only [sys_write, setErrno_fdt]
    split
    · rename_i o ho
      split
      · exact Or.inr ⟨o, _, ho, rfl⟩
      · exact Or.inl rfl
    · exact Or.inl rfl

theorem Opened_sys_lseek (t : List (Int × OFD)) (rd wr : Bool) (ht : ∀ p ∈ t, 3 ≤ p.1)
    (n : Nat) (r : SysRes) :
    Hoare (Opened t rd wr) (sys_lseek (fun s => s.fd0) n r) (Opened t rd wr) := by
  intro s hs
  apply Opened_step t rd wr s _ ht hs
  · simp only [sys_lseek, setErrno_fd0_eq]
    split
    · split <;> rfl
    · rfl
  · simp only [sys_lseek, setErrno_fdt]
    split
    · rename_i o ho
      split
      · exact Or.inr ⟨o, _, ho, rfl⟩
      · exact Or.inl rfl
    · exact Or.inl rfl

theorem Opened_sys_read (t : List (Int × OFD)) (rd wr : Bool) (ht : ∀ p ∈ t, 3 ≤ p.1)
    (r : SysRes) : Hoare (Opened t rd wr) (sys_read r) (Opened t rd wr) := by
  intro s hs
  apply Opened_step t rd wr s _ ht hs
  · simp only [sys_read, setErrno_fd0_eq]
    split
    · split <;> rfl
    · rfl
  · simp only [sys_read, setErrno_fdt]
    split
    · rename_i o ho
      split
      · exact Or.inr ⟨o, _, ho, rfl⟩
      · exact Or.inl rfl
    · exact Or.inl rfl

theorem Opened_TEST_writev (t : List (Int × OFD)) (rd wr : Bool) (ht : ∀ p ∈ t, 3 ≤ p.1)
    (r : SysRes) (d : List Nat) (a : Option (List Nat)) :
    Hoare (Opened t rd wr) (TEST_writev r d a) (Opened t rd wr) := by
  intro s hs
  apply Opened_step t rd wr s _ ht hs
  · exact TEST_writev_fd0 r d a s
  · change (setErrno r _).fdt = _ ∨ ∃ o n, _ ∧ (setErrno r _).fdt = _
    simp only [setErrno_fdt]
    split
    · rename_i o ho
      split
      · split
        · exact Or.inl rfl
        · exact Or.inl rfl
      · split
        · exact Or.inr ⟨o, _, ho, rfl⟩
        · exact Or.inl rfl
    · exact Or.inl rfl

theorem Opened_report_cleanup (t : List (Int × OFD)) (rd wr : Bool) (ty : TType)
    (m : St → String) (u : SysRes) :
    Hoare (Opened t rd wr) (block [tst_resm ty m, cleanup u]) (Opened t rd wr) := by
  simp only [block_cons, block_nil]
  exact Hoare_seq (Opened_keeps (fd_tst_resm _ _) t rd wr)
    (Hoare_seq (Opened_keeps (fd_cleanup _) t rd wr) (Hoare_nop _))

theorem Opened_l_seek (t : List (Int × OFD)) (rd wr : Bool) (ht : ∀ p ∈ t, 3 ≤ p.1)
    (n : Nat) (r : SysRes) :
    Hoare (Opened t rd wr) (l_seek (fun s => s.fd0) n r) (Opened t rd wr) := by
  simp only [l_seek, block_cons, block_nil]
  exact Hoare_seq (Opened_sys_lseek t rd wr ht n r)
    (Hoare_seq (Hoare_ite_same (Opened_keeps (fd_tst_resm _ _) t rd wr) (Hoare_nop _))
      (Hoare_nop _))

theorem Opened_after_wopen (t : List (Int × OFD)) (rd wr : Bool) (ht : ∀ p ∈ t, 3 ≤ p.1)
    (e : IterEnv) : Hoare (Opened t rd wr) (after_wopen e) (Opened t rd wr) := by
  unfold after_wopen
  refine Hoare_ite_same (Opened_report_cleanup t rd wr _ _ _) ?_
  simp only [block_cons, block_nil]
  exact Hoare_seq (Opened_sys_write t rd wr ht _)
    (Hoare_seq (Hoare_ite_same (Opened_report_cleanup t rd wr _ _ _) (Hoare_nop _))
      (Hoare_nop _))

theorem Opened_sys_close (t : List (Int × OFD)) (rd wr : Bool) (ht : ∀ p ∈ t, 3 ≤ p.1)
    (r : SysRes) :
    Hoare (Opened t rd wr) (sys_close (fun s => s.fd0) r) (fun s => s.fdt = t) := by
  intro s hs
  simp only [sys_close, setErrno_fdt]
  rcases hs with ⟨ha, hb⟩ | ⟨ha, o, hb, _, _⟩
  · rw [ha, hb]
    exact fdDel_of_fresh _ _ (neg_one_fresh _ ht)
  · rw [hb, ha]
    exact fdDel_lowestFree_cons o t

theorem fdt_of_fdView {p : Prog} (h : Keeps fdView p) (t : List (Int × OFD)) :
    Hoare (fun s => s.fdt = t) p (fun s => s.fdt = t) := by
  intro s hs
  have := congrArg Prod.snd (h s)
  exact this.trans hs

theorem Opened_probe (t : List (Int × OFD)) (rd wr : Bool) (ht : ∀ p ∈ t, 3 ≤ p.1)
    (e : IterEnv) : Hoare (Opened t rd wr) (probe e) (Opened t rd wr) := by
  simp only [probe, block_cons, block_nil]
  refine Hoare_seq (Opened_TEST_writev t rd wr ht _ _ _) ?_
  refine Hoare_seq (Hoare_ite_same ?_ (Opened_keeps (fd_tst_resm _ _) t rd wr)) (Hoare_nop _)
  refine Hoare_seq (Hoare_ite_same (Opened_keeps (fd_tst_resm _ _) t rd wr)
    (Opened_keeps (fd_tst_resm _ _) t rd wr)) ?_
  refine Hoare_seq (Opened_l_seek t rd wr ht _ _) ?_
  refine Hoare_seq (Opened_sys_read t rd wr ht _) ?_
  exact Hoare_seq (Hoare_ite_same (Opened_keeps (fd_tst_resm _ _) t rd wr) (Hoare_nop _))
    (Hoare_nop _)

theorem Opened_prep_file (t : List (Int × OFD)) (ht : ∀ p ∈ t, 3 ≤ p.1) (e : IterEnv) :
    Hoare (fun s => s.fdt = t) (prep_file e) (Opened t true true) := by
  simp only [prep_file, block_cons, block_nil]
  refine Hoare_seq (fdt_of_fdView fd_zero_bufs t) ?_
  refine Hoare_seq (Opened_open_fd0 t _ _ _ _) ?_
  refine Hoare_seq (Opened_after_wopen t _ _ ht e) ?_
  refine Hoare_seq (Opened_sys_close t _ _ ht _) ?_
  refine Hoare_seq (fdt_of_fdView (fd_after_close e) t) ?_
  refine Hoare_seq (Opened_open_fd0 t _ _ _ _) ?_
  refine Hoare_seq (Opened_keeps (fd_after_reopen e) t _ _) ?_
  exact Hoare_seq (Opened_l_seek t _ _ ht _ _) (Hoare_nop _)

theorem Opened_main_body (t : List (Int × OFD)) (ht : ∀ p ∈ t, 3 ≤ p.1) (e : IterEnv) :
    Hoare (fun s => s.fdt = t) (main_body e) (Opened t true true) := by
  refine Hoare_seq (Hoare_seq ?_ (Opened_prep_file t ht e)) (Opened_probe t _ _ ht e)
  intro s hs
  exact (fdt_prep_signals e s).trans hs

theorem AllEv_filter_nil {Q : Event → Prop} {p : Prog} (h : AllEv Q p) (f : Event → Bool)
    (hf : ∀ ev, Q ev → f ev = false) (s : St) : (p s).1.filter f = [] := by
  rw [List.filter_eq_nil_iff]
  intro ev hev
  rw [hf ev (h s ev hev)]
  simp

theorem handler_cleanup (u : SysRes) : AllEv (fun ev => handlerEvent ev = true) (cleanup u) := by
  simp only [cleanup, block_cons, block_nil]
  repeat (first
    | with_reducible apply AllEv_seq
    | with_reducible apply AllEv_ite
    | with_reducible exact AllEv_nop _
    | exact AllEv_single _ (fun _ => rfl) (fun _ => rfl))

theorem handler_l_seek (fd : St → Int) (n : Nat) (r : SysRes) :
    AllEv (fun ev => handlerEvent ev = true) (l_seek fd n r) := by
  simp only [l_seek, block_cons, block_nil]
  repeat (first
    | with_reducible apply AllEv_seq
    | with_reducible apply AllEv_ite
    | with_reducible exact AllEv_nop _
    | exact AllEv_single _ (fun _ => rfl) (fun _ => rfl))

theorem handler_prep_signals (e : IterEnv) :
    AllEv (fun ev => handlerEvent ev = true) (prep_signals e) := by
  simp only [prep_signals, block_cons, block_nil]
  repeat (first
    | with_reducible apply AllEv_seq
    | with_reducible apply AllEv_ite
    | with_reducible exact AllEv_nop _
    | with_reducible exact handler_cleanup _
    | exact AllEv_silent (fun _ => rfl)
    | exact AllEv_single _ (fun _ => rfl) (fun _ => rfl))

theorem handler_after_wopen (e : IterEnv) :
    AllEv (fun ev => handlerEvent ev = true) (after_wopen e) := by
  simp only [after_wopen, block_cons, block_nil]
  repeat (first
    | with_reducible apply AllEv_seq
    | with_reducible apply AllEv_ite
    | with_reducible exact AllEv_nop _
    | with_reducible exact handler_cleanup _
    | exact AllEv_single _ (fun _ => rfl) (fun _ => rfl))

theorem handler_after_close (e : IterEnv) :
    AllEv (fun ev => handlerEvent ev = true) (after_close e) := by
  simp only [after_close, block_cons, block_nil]
  repeat (first
    | with_reducible apply AllEv_seq
    | with_reducible apply AllEv_ite
    | with_reducible exact AllEv_nop _
    | with_reducible exact handler_cleanup _
    | exact AllEv_single _ (fun _ => rfl) (fun _ => rfl))

theorem handler_after_reopen (e : IterEnv) :
    AllEv (fun ev => handlerEvent ev = true) (after_reopen e) := by
  simp only [after_reopen, block_cons, block_nil]
  repeat (first
    | with_reducible apply AllEv_seq
    | with_reducible apply AllEv_ite
    | with_reducible exact AllEv_nop _
    | with_reducible exact handler_cleanup _
    | exact AllEv_single _ (fun _ => rfl) (fun _ => rfl))

theorem handler_probe (e : IterEnv) : AllEv (fun ev => handlerEvent ev = true) (probe e) := by
  simp only [probe, block_cons, block_nil]
  repeat (first
    | with_reducible apply AllEv_seq
    | with_reducible apply AllEv_ite
    | with_reducible exact AllEv_nop _
    | with_reducible exact handler_l_seek _ _ _
    | exact AllEv_single _ (fun _ => rfl) (fun _ => rfl))

theorem handler_not_openClose (ev : Event) (h : handlerEvent ev = true) :
    isOpenClose ev = false := by
  cases ev <;> simp_all [handlerEvent, isOpenClose]

theorem fd0_of_fdView {p : Prog} (h : Keeps fdView p) : Keeps (fun s => s.fd0) p :=
  fun s => congrArg Prod.fst (h s)

theorem fd0_sys_write (r : SysRes) : Keeps (fun s => s.fd0) (sys_write r) := by
  intro s
  simp only [sys_write, setErrno_fd0_eq]
  split
  · split <;> rfl
  · rfl

theorem fd0_sys_read (r : SysRes) : Keeps (fun s => s.fd0) (sys_read r) := by
  intro s
  simp only [sys_read, setErrno_fd0_eq]
  split
  · split <;> rfl
  · rfl

theorem fd0_after_wopen (e : IterEnv) : Keeps (fun s => s.fd0) (after_wopen e) := by
  simp only [after_wopen, block_cons, block_nil]
  repeat (first
    | with_reducible apply Keeps_seq
    | with_reducible apply Keeps_ite
    | with_reducible exact Keeps_nop _
    | with_reducible exact fd0_sys_write _
    | with_reducible exact fd0_of_fdView (fd_cleanup _)
    | with_reducible exact fd0_of_fdView (fd_tst_resm _ _))

theorem fd0_probe (e : IterEnv) : Keeps (fun s => s.fd0) (probe e) := by
  simp only [probe, block_cons, block_nil]
  repeat (first
    | with_reducible apply Keeps_seq
    | with_reducible apply Keeps_ite
    | with_reducible exact Keeps_nop _
    | with_reducible exact fd0_sys_read _
    | exact fun s => TEST_writev_fd0 _ _ _ s
    | exact fun s => l_seek_fd0 _ _ _ s
    | with_reducible exact fd0_of_fdView (fd_tst_resm _ _))

theorem name_after_wopen (e : IterEnv) : Keeps (fun s => s.f_name) (after_wopen e) := by
  simp only [after_wopen, block_cons, block_nil]
  repeat (first
    | with_reducible apply Keeps_seq
    | with_reducible apply Keeps_ite
    | with_reducible exact Keeps_nop (fun s => s.f_name)
    | with_reducible exact name_sys_write _
    | with_reducible exact name_tst_resm _ _
    | with_reducible exact name_cleanup _)

theorem name_after_close (e : IterEnv) : Keeps (fun s => s.f_name) (after_close e) := by
  simp only [after_close, block_cons, block_nil]
  repeat (first
    | with_reducible apply Keeps_seq
    | with_reducible apply Keeps_ite
    | with_reducible exact Keeps_nop (fun s => s.f_name)
    | with_reducible exact name_tst_resm _ _
    | with_reducible exact name_cleanup _)

theorem fd1_sys_signal (sig : Int) (r : Option Int) :
    Keeps (fun s => s.fd1) (sys_signal sig r) := by
  intro s; cases r <;> rfl

theorem fd1_sys_unlink (u : SysRes) : Keeps (fun s => s.fd1) (sys_unlink u) := by
  intro s
  simp only [sys_unlink, setErrno_fd1]
  split <;> rfl

theorem fd1_open_fd0 (c r w : Bool) (inj : Option Int) :
    Keeps (fun s => s.fd1) (open_fd0 c r w inj) := by
  intro s
  unfold open_fd0
  split
  · rfl
  · split
    · rfl
    · split <;> rfl

theorem fd1_sys_write (r : SysRes) : Keeps (fun s => s.fd1) (sys_write r) := by
  intro s
  simp only [sys_write, setErrno_fd1]
  split
  · split <;> rfl
  · rfl

theorem fd1_sys_close (fd : St → Int) (r : SysRes) :
    Keeps (fun s => s.fd1) (sys_close fd r) := by
  intro s
  simp only [sys_close, setErrno_fd1]

theorem fd1_sys_lseek (fd : St → Int) (n : Nat) (r : SysRes) :
    Keeps (fun s => s.fd1) (sys_lseek fd n r) := by
  intro s
  simp only [sys_lseek, setErrno_fd1]
  split
  · split <;> rfl
  · rfl

theorem fd1_TEST_writev (r : SysRes) (d : List Nat) (a : Option (List Nat)) :
    Keeps (fun s => s.fd1) (TEST_writev r d a) := by
  intro s
  simp only [TEST_writev, setErrno_fd1]
  split
  · split
    · split <;> rfl
    · split <;> rfl
  · rfl

theorem fd1_sys_read (r : SysRes) : Keeps (fun s => s.fd1) (sys_read r) := by
  intro s
  simp only [sys_read, setErrno_fd1]
  split
  · split <;> rfl
  · rfl

theorem fd1_emit (ev : Event) : Keeps (fun s => s.fd1) (emit ev) := fun _ => rfl

theorem fd1_tst_resm (t : TType) (m : St → String) :
    Keeps (fun s => s.fd1) (tst_resm t m) := fun _ => rfl

theorem fd1_zero_bufs : Keeps (fun s => s.fd1) zero_bufs := fun _ => rfl

theorem fd1_cleanup (u : SysRes) : Keeps (fun s => s.fd1) (cleanup u) := by
  simp only [cleanup, block_cons, block_nil]
  repeat (first
    | with_reducible apply Keeps_seq
    | with_reducible apply Keeps_ite
    | with_reducible exact Keeps_nop (fun s => s.fd1)
    | with_reducible exact fd1_sys_unlink _
    | with_reducible exact fd1_emit _
    | with_reducible exact fd1_tst_resm _ _)

theorem fd1_l_seek (fd : St → Int) (n : Nat) (r : SysRes) :
    Keeps (fun s => s.fd1) (l_seek fd n r) := by
  simp only [l_seek, block_cons, block_nil]
  repeat (first
    | with_reducible apply Keeps_seq
    | with_reducible apply Keeps_ite
    | with_reducible exact Keeps_nop (fun s => s.fd1)
    | with_reducible exact fd1_sys_lseek _ _ _
    | with_reducible exact fd1_tst_resm _ _)

theorem fd1_prep_file (e : IterEnv) : Keeps (fun s => s.fd1) (prep_file e) := by
  simp only [prep_file, after_wopen, after_close, after_reopen, block_cons, block_nil]
  repeat (first
    | with_reducible apply Keeps_seq
    | with_reducible apply Keeps_ite
    | with_reducible exact Keeps_nop (fun s => s.fd1)
    | with_reducible exact fd1_open_fd0 _ _ _ _
    | with_reducible exact fd1_sys_write _
    | with_reducible exact fd1_sys_close _ _
    | with_reducible exact fd1_tst_resm _ _
    | with_reducible exact fd1_zero_bufs
    | with_reducible exact fd1_cleanup _
    | with_reducible exact fd1_l_seek _ _ _)

theorem fd1_probe (e : IterEnv) : Keeps (fun s => s.fd1) (probe e) := by
  simp only [probe, block_cons, block_nil]
  repeat (first
    | with_reducible apply Keeps_seq
    | with_reducible apply Keeps_ite
    | with_reducible exact Keeps_nop (fun s => s.fd1)
    | with_reducible exact fd1_TEST_writev _ _ _
    | with_reducible exact fd1_sys_read _
    | with_reducible exact fd1_tst_resm _ _
    | with_reducible exact fd1_l_seek _ _ _)

theorem fd1_sig_tail (e : IterEnv) : Keeps (fun s => s.fd1)
    (block [
      sys_signal SIGTERM e.sigterm,
      cond (fun _ => e.sigterm.isSome)
        (block [
          emit (Event.perror "signal"),
          tst_resm TType.TFAIL (fun _ => "signal() SIGTERM FAILED"),
          cleanup (e.unlink Site.sigterm) ])
        skip,
      sys_signal SIGPIPE e.sigpipe,
      cond (fun _ => e.sigpipe.isSome)
        (block [
          emit (Event.perror "signal"),
          tst_resm TType.TFAIL (fun _ => "signal() SIGPIPE FAILED"),
          cleanup (e.unlink Site.sigpipe) ])
        skip ]) := by
  simp only [block_cons, block_nil]
  repeat (first
    | with_reducible apply Keeps_seq
    | with_reducible apply Keeps_ite
    | with_reducible exact Keeps_nop (fun s => s.fd1)
    | with_reducible exact fd1_sys_signal _ _
    | with_reducible exact fd1_emit _
    | with_reducible exact fd1_tst_resm _ _
    | with_reducible exact fd1_cleanup _)

theorem main_body_fd1 (e : IterEnv) (s : St) : (main_body e s).2.fd1 = -1 := by
  have h1 : (prep_signals e s).2.fd1 = -1 := by
    simp only [prep_signals, block_cons, andThen_snd]
    exact fd1_sig_tail e (reset_fd1 s).2
  simp only [main_body, prep, andThen_snd]
  exact ((fd1_probe e _).trans (fd1_prep_file e _)).trans h1

theorem main_body_open_close (e : IterEnv) (s : St) :
    ∃ a, (main_body e s).1.filter isOpenClose =
      [Event.sys_open s.f_name true false true a,
       Event.sys_close a e.close1.ret,
       Event.sys_open s.f_name false true true (main_body e s).2.fd0] := by
  have hf := fun {p : Prog} (h : AllEv (fun ev => handlerEvent ev = true) p) (t : St) =>
    AllEv_filter_nil h isOpenClose handler_not_openClose t
  refine ⟨(open_fd0 true false true e.open1 (zero_bufs (prep_signals e s).2).2).2.fd0, ?_⟩
  have n1 : (zero_bufs (prep_signals e s).2).2.f_name = s.f_name :=
    (name_memset _).trans (name_prep_signals e s)
  simp only [main_body, prep, prep_file, block_cons, block_nil, andThen_fst, andThen_snd,
    List.filter_append, hf (handler_prep_signals e), hf (handler_after_wopen e),
    hf (handler_after_close e), hf (handler_after_reopen e), hf (handler_l_seek _ _ _),
    hf (handler_probe e), open_fd0_fst, sys_close_fst, skip_apply, List.append_nil,
    List.nil_append, fd0_probe e _, l_seek_fd0, fd0_of_fdView (fd_after_reopen e) _,
    fd0_after_wopen e _, name_after_close e _, name_sys_close _ _ _, name_after_wopen e _,
    name_open_fd0 _ _ _ _ _, n1]
  rfl

theorem RwTable_cons (t : List (Int × OFD)) (o : OFD) (h : RwTable t) (hr : o.rd = true)
    (hw : o.wr = true) : RwTable ((lowestFree t, o) :: t) := by
  obtain ⟨h1, h2, h3⟩ := h
  refine ⟨?_, ?_, ?_⟩
  · intro p hp
    rcases List.mem_cons.mp hp with rfl | hp
    · exact lowestFree_ge t
    · exact h1 p hp
  · rw [List.map_cons, List.nodup_cons]
    refine ⟨?_, h2⟩
    intro hmem
    rw [List.mem_map] at hmem
    obtain ⟨q, hq, hq2⟩ := hmem
    exact lowestFree_fresh t q hq hq2
  · intro p hp
    rcases List.mem_cons.mp hp with rfl | hp
    · exact ⟨hr, hw⟩
    · exact h3 p hp

theorem rwCount_of_RwTable (t : List (Int × OFD)) (h : RwTable t) : rwCount t = t.length := by
  unfold rwCount
  rw [List.countP_eq_length]
  intro p hp
  simp [h.2.2 p hp]

theorem main_body_fd0_nonneg (e : IterEnv) (s : St)
    (h : (main_body e s).1.all openOk = true) : 0 ≤ (main_body e s).2.fd0 := by
  obtain ⟨a, ha⟩ := main_body_open_close e s
  have hmem : Event.sys_open s.f_name false true true (main_body e s).2.fd0 ∈
      (main_body e s).1.filter isOpenClose := by
    rw [ha]; simp
  have h2 := List.all_eq_true.mp h _ (List.mem_filter.mp hmem).1
  simpa [openOk] using h2

theorem main_body_table (e : IterEnv) (s : St) (ht : RwTable s.fdt)
    (h : (main_body e s).1.all openOk = true) :
    ∃ o, (main_body e s).2.fdt = (lowestFree s.fdt, o) :: s.fdt ∧
      (main_body e s).2.fd0 = lowestFree s.fdt ∧ o.rd = true ∧ o.wr = true := by
  have h0 := main_body_fd0_nonneg e s h
  rcases Opened_main_body s.fdt ht.1 e s rfl with ⟨ha, _⟩ | ⟨ha, o, hb, hc, hd⟩
  · rw [ha] at h0
    omega
  · exact ⟨o, by rw [hb, ha], ha, hc, hd⟩

theorem main_loop_table (es : List IterEnv) (s : St) (ht : RwTable s.fdt)
    (h : (main_loop es s).1.all openOk = true) (hne : es ≠ []) :
    ∃ o t, (main_loop es s).2.fdt = (lowestFree t, o) :: t ∧
      (main_loop es s).2.fd0 = lowestFree t ∧ (main_loop es s).2.fd1 = -1 ∧
      RwTable t ∧ t.length = s.fdt.length + (es.length - 1) ∧ o.rd = true ∧ o.wr = true := by
  induction es generalizing s with
  | nil => exact absurd rfl hne
  | cons e es ih =>
    rw [main_loop_cons, andThen_fst, List.all_append, Bool.and_eq_true] at h
    obtain ⟨o, hb, ha, hc, hd⟩ := main_body_table e s ht h.1
    by_cases hes : es = []
    · subst hes
      refine ⟨o, s.fdt, ?_, ?_, ?_, ht, by simp, hc, hd⟩
      · exact hb
      · exact ha
      · exact main_body_fd1 e s
    · have ht2 : RwTable (main_body e s).2.fdt := by
        rw [hb]
        exact RwTable_cons _ _ ht hc hd
      obtain ⟨o2, t2, k1, k2, k3, k4, k5, k6, k7⟩ := ih (main_body e s).2 ht2 h.2 hes
      refine ⟨o2, t2, k1, k2, k3, k4, ?_, k6, k7⟩
      rw [k5, hb]
      have : 1 ≤ es.length := by
        cases es with
        | nil => exact absurd rfl hes
        | cons _ _ => simp
      simp only [List.length_cons]
      omega

theorem main_loop_fd1 (es : List IterEnv) (s : St) (hne : es ≠ []) :
    (main_loop es s).2.fd1 = -1 := by
  induction es generalizing s with
  | nil => exact absurd rfl hne
  | cons e es ih =>
    by_cases hes : es = []
    · subst hes
      exact main_body_fd1 e s
    · exact ih _ hes

theorem main_snd_fdt (env : Env) (s : St) :
    (main env s).2.fdt =
      fdDel (main_loop env.iters (setup env.pid env.mmap_ret s).2).2.fd1
        (fdDel (main_loop env.iters (setup env.pid env.mmap_ret s).2).2.fd0
          (main_loop env.iters (setup env.pid env.mmap_ret s).2).2.fdt) := by
  have hc : ∀ t : St, (cleanup env.unlink t).2.fdt = t.fdt :=
    fun t => congrArg Prod.snd (fd_cleanup env.unlink t)
  simp [main, hc, sys_close, setErrno_fd1]

theorem setup_fdt (pid mm : Int) : (setup pid mm init).2.fdt = [] := by
  by_cases h : mm = -1 <;> simp [setup, init, h]

theorem main_loop_all_openOk (env : Env) (h : (main env init).1.all openOk = true) :
    (main_loop env.iters (setup env.pid env.mmap_ret init).2).1.all openOk = true := by
  rw [main_fst] at h
  simp only [List.cons_append, List.all_cons, List.all_append, Bool.and_eq_true] at h
  exact h.2.1.1.1.2

/-! ## The claims -/

theorem prep_any_isPass (e : IterEnv) (s : St) : (prep e s).1.any isPass = false := by
  rw [List.any_eq_false]
  intro ev hev
  have := prep_AllEv e s ev hev
  cases ev <;> simp_all [prepEvent, isPass]
  rename_i t m
  cases t <;> simp_all [prepEvent, isPass]

theorem prep_any_isResidualIO (e : IterEnv) (s : St) :
    (prep e s).1.any isResidualIO = false := by
  rw [List.any_eq_false]
  intro ev hev
  have := prep_AllEv e s ev hev
  cases ev <;> simp_all [prepEvent, isResidualIO]
  rename_i fd off r
  cases off <;> simp_all [prepEvent, K_1]

/-- C1: in a pass of the loop of `main`, for every outcome `(ret, errno)` of
the vectored write, the report that belongs to the outcome is made (a PASS when
`ret < 0` and `errno = EFAULT`, the FAIL "Expected EFAULT" when `ret < 0` with
another errno, the FAIL "Error writev returned a positive value" when
`ret >= 0`), and the pass reports a PASS exactly when `ret < 0` and
`errno = EFAULT`. -/
theorem C1_writev_report (e : IterEnv) (s : St) :
    (if e.writev.ret < 0 then
        (if e.writev.errno = EFAULT then
          Event.tst_resm TType.TPASS "Received EFAULT as expected"
        else Event.tst_resm TType.TFAIL ("Expected EFAULT, got " ++ fmt_d e.writev.errno))
      else Event.tst_resm TType.TFAIL "Error writev returned a positive value")
      ∈ (main_body e s).1 ∧
    ((main_body e s).1.any isPass = true ↔ (e.writev.ret < 0 ∧ e.writev.errno = EFAULT)) := by
  rw [main_body_fst]
  constructor
  · apply List.mem_append_right
    unfold probeEvents
    by_cases hr : e.writev.ret < 0 <;> by_cases he : e.writev.errno = EFAULT <;>
      simp [hr, he]
  · rw [List.any_append, prep_any_isPass]
    unfold probeEvents
    by_cases hr : e.writev.ret < 0 <;> by_cases he : e.writev.errno = EFAULT <;>
      by_cases hl : e.lseek2.ret < 0 <;> by_cases hn : e.read1.ret = 0 <;>
      simp [hr, he, hl, hn, isPass]

/-- C2: in a pass of the loop of `main` in which the vectored write returned
a negative result, the pass ends with the seek to offset 8192 (and the report of
a failed seek), the read of up to 8192 bytes, and, exactly when the read result
is not 0, the FAIL "Expected nbytes = 0"; when the vectored write returned a
non-negative result the pass performs no seek to 8192 and no read. -/
theorem C2_residual_check (e : IterEnv) (s : St) :
    if e.writev.ret < 0 then
      ∃ pre fd, (main_body e s).1 =
        pre ++ Event.sys_lseek fd 8192 e.lseek2.ret ::
          ((if e.lseek2.ret < 0 then
              [Event.tst_resm TType.TFAIL ("lseek Failed : errno = " ++ fmt_d e.lseek2.errno)]
            else []) ++
           Event.sys_read fd 8192 e.read1.ret ::
           (if e.read1.ret ≠ 0 then
              [Event.tst_resm TType.TFAIL ("Expected nbytes = 0, got " ++ fmt_d e.read1.ret)]
            else []))
    else (main_body e s).1.any isResidualIO = false := by
  rw [main_body_fst]
  by_cases hr : e.writev.ret < 0
  · simp only [hr, if_true]
    refine ⟨(prep e s).1 ++ [Event.sys_writev (prep e s).2.fd0 2 e.writev.ret,
      (if e.writev.errno = EFAULT then
          Event.tst_resm TType.TPASS "Received EFAULT as expected"
        else Event.tst_resm TType.TFAIL ("Expected EFAULT, got " ++ fmt_d e.writev.errno))],
      (prep e s).2.fd0, ?_⟩
    simp [probeEvents, hr, K_1, CHUNK]
  · simp only [hr, if_false]
    rw [List.any_append, prep_any_isResidualIO]
    simp [probeEvents, hr, isResidualIO]

/-- C4 (the code at the failing input): when the `unlink` of `cleanup` fails
because the file is already absent (`errno = ENOENT`), `cleanup` reports a
failure all the same, then removes the working directory. -/
theorem C4_cleanup_reports_enoent (s : St) :
    (cleanup ⟨-1, ENOENT⟩ s).1 =
      [Event.sys_unlink s.f_name (-1),
       Event.tst_resm TType.TFAIL ("unlink Failed--file = " ++ s.f_name ++ ", errno = 2"),
       Event.tst_rmdir] := by
  have h : ", errno = " ++ fmt_d 2 = ", errno = 2" := by decide
  simp [cleanup, sys_unlink, setErrno, ENOENT, String.append_assoc, h]

/-- C5 (as amended): `sighandler(SIGTERM)` always ends by terminating the
process with exit status `SIGTERM`. When its deletion of the target file
succeeds or fails with `ENOENT`, that is the only deletion attempt, nothing is
reported and `cleanup` is not called. When the deletion fails with another
errno, the failure is reported and `cleanup` is called, which attempts the
deletion a second time and removes the working directory; between the second
deletion and the removal there are only reports: none when the second deletion
succeeds, the report of the failure when it fails with an errno other than
`ENOENT`. -/
theorem C5_sighandler_sigterm (u1 u2 : SysRes) (s : St) :
    ∃ rep, rep.any isCleanupOrExit = false ∧
      (0 ≤ u2.ret → rep = []) ∧
      (u2.ret < 0 → u2.errno ≠ ENOENT →
        rep = [Event.tst_resm TType.TFAIL
          ("unlink Failed--file = " ++ s.f_name ++ ", errno = " ++ fmt_d u2.errno)]) ∧
      (sighandler SIGTERM u1 u2 s).1 =
        if u1.ret < 0 ∧ u1.errno ≠ ENOENT then
          Event.sys_unlink s.f_name u1.ret ::
          Event.tst_resm TType.TFAIL
            ("unlink Failed--file = " ++ s.f_name ++ ", errno = " ++ fmt_d u1.errno) ::
          Event.sys_unlink s.f_name u2.ret ::
          (rep ++ [Event.tst_rmdir, Event.exit SIGTERM])
        else [Event.sys_unlink s.f_name u1.ret, Event.exit SIGTERM] := by
  have hsig : SIGTERM ≠ SIGPIPE := by decide
  refine ⟨if u2.ret < 0 then
      [Event.tst_resm TType.TFAIL
        ("unlink Failed--file = " ++ s.f_name ++ ", errno = " ++ fmt_d u2.errno)]
    else [], ?_, ?_, ?_, ?_⟩
  · by_cases h : u2.ret < 0 <;> simp [h, isCleanupOrExit]
  · intro h
    have h2 : ¬ u2.ret < 0 := by omega
    simp [h2]
  · intro h _
    simp [h]
  · by_cases h1 : u1.ret < 0
    · by_cases h2 : u1.errno = ENOENT
      · simp [sighandler, hsig, h1, h2, sys_unlink]
      · have h3 : ¬ (0 ≤ u1.ret) := by omega
        simp [sighandler, hsig, h1, h2, sys_unlink, h3, cleanup_fst]
    · simp [sighandler, hsig, h1]

/-- C5 (counterexample): when the deletion in `sighandler(SIGTERM)` fails with
`EACCES` (13), the target file's deletion is attempted twice, not exactly
once. -/
theorem C5_counterexample :
    ((sighandler SIGTERM ⟨-1, 13⟩ ⟨-1, 13⟩ (setup 77 4096 init).2).1.countP isUnlink) = 2 := by
  decide

/-- C6: `sighandler(SIGPIPE)` performs no action (no termination, no deletion,
no report) and returns in the state it was called in but for `in_sighandler`,
which is one more. -/
theorem C6_sighandler_sigpipe (u1 u2 : SysRes) (s : St) :
    sighandler SIGPIPE u1 u2 s = ([], { s with in_sighandler := s.in_sighandler + 1 }) := by
  simp [sighandler]

/-- C9: `setup` sets the name of the target file to `writev_data_file`, a
dot and the decimal rendering of the process identifier, and two different
process identifiers give two different names. -/
theorem C9_f_name_unique (p q mm1 mm2 : Int) (s1 s2 : St) (h : p ≠ q) :
    (setup p mm1 s1).2.f_name = "writev_data_file" ++ "." ++ fmt_d p ∧
    decValue (fmt_d_chars p.natAbs) = p.natAbs ∧
    (setup p mm1 s1).2.f_name ≠ (setup q mm2 s2).2.f_name := by
  refine ⟨setup_f_name p mm1 s1, ?_, f_name_unique p q mm1 mm2 s1 s2 h⟩
  have h0 : ¬ ((p.natAbs : Int) < 0) := by omega
  simp only [fmt_d_chars, h0, if_false, Int.natAbs_ofNat]
  exact decValue_decDigits _ _ (by omega)

/-- C9 (witness): the process identifiers 100 and 101. -/
theorem C9_witness :
    (setup 100 4096 init).2.f_name = "writev_data_file" ++ "." ++ fmt_d 100 ∧
    decValue (fmt_d_chars (100 : Int).natAbs) = (100 : Int).natAbs ∧
    (setup 100 4096 init).2.f_name ≠ (setup 101 4096 init).2.f_name :=
  C9_f_name_unique 100 101 4096 4096 init init (by decide)
/-- C3 (the code at the failing input): in a first pass whose write-only open
fails, the failure is reported and `cleanup` runs, but the process does not
terminate: the pass goes on to `close`, to the read-write open and to the
seek, each followed by its own report and `cleanup`, and the vectored write is
invoked. -/
theorem C3_open_failure_not_fatal :
    (main_body openFailIter (setup 77 4096 init).2).1 =
      [Event.sys_signal 15 true,
       Event.sys_signal 13 true,
       Event.sys_open "writev_data_file.77" true false true (-1),
       Event.tst_resm TType.TFAIL "open(2) failed: fname = writev_data_file.77, errno = 28",
       Event.sys_unlink "writev_data_file.77" (-1),
       Event.tst_resm TType.TFAIL "unlink Failed--file = writev_data_file.77, errno = 2",
       Event.tst_rmdir,
       Event.sys_close (-1) (-1),
       Event.tst_resm TType.TFAIL "close failed: errno = 9",
       Event.sys_unlink "writev_data_file.77" (-1),
       Event.tst_resm TType.TFAIL "unlink Failed--file = writev_data_file.77, errno = 2",
       Event.tst_rmdir,
       Event.sys_open "writev_data_file.77" false true true (-1),
       Event.tst_resm TType.TFAIL "open failed: fname = writev_data_file.77, errno = 2",
       Event.sys_unlink "writev_data_file.77" (-1),
       Event.tst_resm TType.TFAIL "unlink Failed--file = writev_data_file.77, errno = 2",
       Event.tst_rmdir,
       Event.sys_lseek (-1) 0 (-1),
       Event.tst_resm TType.TFAIL "lseek Failed : errno = 9",
       Event.sys_writev (-1) 2 (-1),
       Event.tst_resm TType.TFAIL "Expected EFAULT, got 9",
       Event.sys_lseek (-1) 8192 (-1),
       Event.tst_resm TType.TFAIL "lseek Failed : errno = 9",
       Event.sys_read (-1) 8192 (-1),
       Event.tst_resm TType.TFAIL "Expected nbytes = 0, got -1"] := by
  decide

/-- C8: take a pass of the loop of `main`, the first or a later one, whose
write-only open, write of 8192 bytes, close, read-write open and seek succeed,
in a run in which every earlier vectored write that failed left the file as it
was. At the moment the vectored write is invoked, `fd[0]` is a descriptor open
for reading and writing whose cursor is at offset 0, on the file the name
`f_name` is linked to, and the content of that file is exactly 8192 zero
bytes. -/
theorem C8_file_at_writev (env : Env) (k : Nat) (e : IterEnv)
    (hk : env.iters[k]? = some e)
    (hprev : ∀ e2 ∈ env.iters.take k, e2.writev.ret < 0 → e2.writev_after = none)
    (h1 : e.open1 = none) (h2 : e.write1.ret = 8192) (h3 : 0 ≤ e.close1.ret)
    (h4 : e.open2 = none) (h5 : 0 ≤ e.lseek1.ret) :
    env.iters[k]? = some e ∧
    ∃ i, ((prep e (main_upto env k init).2).2.fdt.lookup
            (prep e (main_upto env k init).2).2.fd0 = some ⟨i, 0, true, true⟩) ∧
      (prep e (main_upto env k init).2).2.link = some i ∧
      (prep e (main_upto env k init).2).2.inodes.getD i [] = List.replicate 8192 0 := by
  refine ⟨hk, ?_⟩
  have hI : InvK (main_upto env k init).2 := by
    simp only [main_upto, block_cons, block_nil, andThen_snd, emit_apply, skip_apply]
    exact InvK_main_loop _ hprev _ (InvK_setup _ _)
  have hI2 := InvK_prep_signals e _ hI
  exact prep_file_ok e _ hI2 h1 h2 h3 h4 h5

/-- C8 (witness): the second pass of the run `okEnv`. -/
theorem C8_witness :
    okEnv.iters[1]? = some okIter ∧
    ∃ i, ((prep okIter (main_upto okEnv 1 init).2).2.fdt.lookup
            (prep okIter (main_upto okEnv 1 init).2).2.fd0 = some ⟨i, 0, true, true⟩) ∧
      (prep okIter (main_upto okEnv 1 init).2).2.link = some i ∧
      (prep okIter (main_upto okEnv 1 init).2).2.inodes.getD i [] = List.replicate 8192 0 :=
  C8_file_at_writev okEnv 1 okIter rfl
    (by
      intro e2 h2 _
      simp only [okEnv, List.take_succ_cons, List.take_zero, List.mem_singleton] at h2
      subst h2
      rfl)
    rfl rfl (by decide) rfl (by decide)

/-- C10: every pass of the loop of `main` opens the target file twice, first
write-only and then read-write, and closes once, the descriptor of the
write-only open; the read-write descriptor stays in `fd[0]`. In a run of
`n >= 1` passes the two closes after the loop are the only ones left: the
`close` of the `fd[0]` of the last pass and `close(fd[1])`, which is applied
to the descriptor -1. When all opens succeed, `n` read-write descriptors are
open at the end of the loop and `n - 1` distinct ones are still open at the end
of the run. -/
theorem C10_descriptor_leak (env : Env) (e : IterEnv) (s : St)
    (hn : 1 ≤ env.iters.length) :
    (∃ a, (main_body e s).1.filter isOpenClose =
      [Event.sys_open s.f_name true false true a,
       Event.sys_close a e.close1.ret,
       Event.sys_open s.f_name false true true (main_body e s).2.fd0]) ∧
    (∃ pre post, post.any isOpenClose = false ∧
      (main env init).1 = pre ++
        Event.sys_close (main_loop env.iters (setup env.pid env.mmap_ret init).2).2.fd0
          env.close_fd0.ret ::
        Event.sys_close (-1) env.close_fd1.ret :: post) ∧
    ((main env init).1.all openOk = true →
      rwCount (main_loop env.iters (setup env.pid env.mmap_ret init).2).2.fdt =
        env.iters.length ∧
      rwCount (main env init).2.fdt = env.iters.length - 1 ∧
      (main env init).2.fdt.length = env.iters.length - 1 ∧
      ((main env init).2.fdt.map Prod.fst).Nodup) := by
  have hne : env.iters ≠ [] := by
    intro h
    rw [h] at hn
    simp at hn
  refine ⟨main_body_open_close e s, ?_, ?_⟩
  · refine ⟨Event.tst_parse_opts :: (setup env.pid env.mmap_ret init).1 ++
      (main_loop env.iters (setup env.pid env.mmap_ret init).2).1,
      (Event.sys_unlink (setup env.pid env.mmap_ret init).2.f_name env.unlink.ret ::
        ((if env.unlink.ret < 0 then
            [Event.tst_resm TType.TFAIL
              ("unlink Failed--file = " ++ (setup env.pid env.mmap_ret init).2.f_name ++
                ", errno = " ++ fmt_d env.unlink.errno)]
          else []) ++ [Event.tst_rmdir])) ++ [Event.tst_exit], ?_, ?_⟩
    · by_cases hu : env.unlink.ret < 0 <;> simp [isOpenClose, hu]
    · rw [main_fst, main_loop_fd1 _ _ hne]
      simp
  · intro hall
    have hT : RwTable (setup env.pid env.mmap_ret init).2.fdt := by
      rw [setup_fdt]
      exact ⟨by simp, by simp, by simp⟩
    obtain ⟨o, t, k1, k2, k3, k4, k5, k6, k7⟩ :=
      main_loop_table env.iters _ hT (main_loop_all_openOk env hall) hne
    have hfin : (main env init).2.fdt = t := by
      rw [main_snd_fdt, k1, k2, k3, fdDel_lowestFree_cons]
      exact fdDel_of_fresh _ _ (neg_one_fresh _ k4.1)
    have hloop : rwCount (main_loop env.iters (setup env.pid env.mmap_ret init).2).2.fdt =
        env.iters.length := by
      rw [k1, rwCount_of_RwTable _ (RwTable_cons t o k4 k6 k7), List.length_cons, k5,
        setup_fdt]
      simp only [List.length_nil]
      omega
    rw [hfin, rwCount_of_RwTable t k4, k5, setup_fdt]
    exact ⟨hloop, by simp, by simp, k4.2.1⟩

/-- C10 (witness): the run of two passes `okEnv` leaves one read-write
descriptor open. -/
theorem C10_witness : rwCount (main okEnv init).2.fdt = 1 :=
  ((C10_descriptor_leak okEnv okIter init (by decide)).2.2 (by decide)).2.1

end Writev05
